import Mathlib

/-!
Shell command executor (`execute.c`): embedding and verified properties.

The C functions of `execute.c` are embedded as programs over an explicit
system-call interface.  A program is a tree whose nodes are the calls the C
code makes (`open`, `dup2`, `close`, `execvp`, `fork`, `waitpid`, `pipe`,
`chdir`, ...) and whose branches are indexed by what the kernel answers.

Two interpreters give the programs a meaning:

* `runP` follows ONE process.  An oracle supplies the answer to each call; the
  answer `0` to `fork` means "this is the child", exactly as in C.
* `runTree` follows the whole process tree: a successful `fork` runs the
  continuation twice, once as the child (answer `0`) and once as the parent.
-/

namespace Shell

/-! ## Constants of the C library headers (Linux values) -/

def EXIT_SUCCESS : Int := 0
def EXIT_FAILURE : Int := 1
def STDIN_FILENO : Int := 0
def STDOUT_FILENO : Int := 1
def STDERR_FILENO : Int := 2
def O_RDONLY : Nat := 0
def O_WRONLY : Nat := 1
def O_RDWR : Nat := 2
def O_CREAT : Nat := 0o100
def O_TRUNC : Nat := 0o1000
def O_APPEND : Nat := 0o2000

/-! ## Data model -/

/-- Modelled from the spec: the `Command` record, whose declaration
(`command.h`) is not among the sources.  Section 3 of the spec describes it
and `execute.c` reads these five fields: `argv` is the NULL-terminated
argument vector (the list holds the entries before the NULL), a NULL file name
is `none`, and `pipe_to` is the next command of the chain. -/
inductive Command where
  | mk (argv : List String) (in_filename out_filename err_filename : Option String)
      (pipe_to : Option Command) : Command

namespace Command

def argv : Command → List String
  | mk a _ _ _ _ => a

def in_filename : Command → Option String
  | mk _ i _ _ _ => i

def out_filename : Command → Option String
  | mk _ _ o _ _ => o

def err_filename : Command → Option String
  | mk _ _ _ e _ => e

def pipe_to : Command → Option Command
  | mk _ _ _ _ p => p

/-- The stages of a pipe chain, first to last, following `pipe_to`. -/
def stages : Command → List Command
  | mk a i o e none => [mk a i o e none]
  | mk a i o e (some next) => mk a i o e (some next) :: stages next

end Command

/-! ## The system-call interface -/

/-- Calls whose result the C code receives. -/
inductive Call where
  | open_ (path : String) (flags : Nat) (mode : Nat)
  | dup2 (oldfd newfd : Int)
  | close (fd : Int)
  | execvp (file : String) (argv : List String)
  | fork
  | waitpid (pid : Int) (options : Int)
  | pipe
  | chdir (path : String)
  | pathconf_PATH_MAX (path : String)
  | malloc (size : Nat)
  | getcwd (size : Nat)
  deriving DecidableEq, Repr

/-- Library calls whose result the C code ignores. -/
inductive Act where
  | perror (s : String)
  | printf (s : String)
  | fprintf_stderr (fmt : String) (arg : String)
  | free
  deriving DecidableEq, Repr

/-- What a call answers: `ret` is the C return value (for `malloc`, non-zero
means a non-NULL pointer); `fd0`, `fd1` are the two descriptors `pipe` stores
(`fd0` doubles as the status word `waitpid` stores); `str` is the string
`getcwd` returns, `none` standing for NULL. -/
structure Reply where
  ret : Int
  fd0 : Int
  fd1 : Int
  str : Option String
  deriving DecidableEq, Repr

/-- A reply that carries a return value only. -/
def Reply.val (v : Int) : Reply := ⟨v, 0, 0, none⟩

inductive Event where
  | sys (c : Call) (r : Reply)
  | act (a : Act)
  deriving DecidableEq, Repr

/-- How a process leaves the embedded code: it returns to the caller of the
top-level function, calls `exit`, has its image replaced by a successful
`execvp`, is aborted by a failed `assert`, or runs into undefined behaviour. -/
inductive Outcome (α : Type) where
  | returned (v : α)
  | exited (status : Int)
  | execed
  | aborted
  | undefined
  deriving DecidableEq, Repr

/-- Programs: trees of calls. -/
inductive Prog (α : Type) where
  | ret (a : α) : Prog α
  | call (c : Call) (k : Reply → Prog α) : Prog α
  | act (a : Act) (k : Prog α) : Prog α
  | exit (status : Int) : Prog α
  | abort : Prog α
  | ub : Prog α

namespace Prog

def bind {α β : Type} : Prog α → (α → Prog β) → Prog β
  | ret a, f => f a
  | call c k, f => call c (fun r => bind (k r) f)
  | act a k, f => act a (bind k f)
  | exit s, _ => exit s
  | abort, _ => abort
  | ub, _ => ub

instance : Monad Prog where
  pure := Prog.ret
  bind := Prog.bind

end Prog

/-- Perform one call and hand its reply to the rest of the program. -/
def sys (c : Call) : Prog Reply := Prog.call c Prog.ret

def perror (s : String) : Prog Unit := Prog.act (Act.perror s) (Prog.ret ())

def printf (s : String) : Prog Unit := Prog.act (Act.printf s) (Prog.ret ())

def fprintf_stderr (fmt arg : String) : Prog Unit :=
  Prog.act (Act.fprintf_stderr fmt arg) (Prog.ret ())

def free : Prog Unit := Prog.act Act.free (Prog.ret ())

/-! ## Interpreters -/

/-- A successful `execvp` (answer `0`) never returns: the image is replaced. -/
def replaces : Call → Reply → Bool
  | Call.execvp _ _, r => r.ret == 0
  | _, _ => false

/-- The run of one process: its events in order, how it ended, and the index
of the next oracle entry. -/
structure Run (α : Type) where
  trace : List Event
  outcome : Outcome α
  next : Nat
  deriving DecidableEq, Repr

/-- Put one more event in front of a run. -/
def Run.cons {α : Type} (e : Event) (r : Run α) : Run α :=
  ⟨e :: r.trace, r.outcome, r.next⟩

/-- Follow one process.  The oracle answers the `n`-th call. -/
def runP {α : Type} : Prog α → (Nat → Call → Reply) → Nat → Run α
  | Prog.ret a, _, n => ⟨[], Outcome.returned a, n⟩
  | Prog.exit s, _, n => ⟨[], Outcome.exited s, n⟩
  | Prog.abort, _, n => ⟨[], Outcome.aborted, n⟩
  | Prog.ub, _, n => ⟨[], Outcome.undefined, n⟩
  | Prog.act a k, o, n => (runP k o n).cons (Event.act a)
  | Prog.call c k, o, n =>
      if replaces c (o n c) then ⟨[Event.sys c (o n c)], Outcome.execed, n + 1⟩
      else (runP (k (o n c)) o (n + 1)).cons (Event.sys c (o n c))

/-- How a process ended, without the value it returned. -/
inductive Ending where
  | returned
  | exited (status : Int)
  | execed
  | aborted
  | undefined
  deriving DecidableEq, Repr

def Outcome.ending {α : Type} : Outcome α → Ending
  | Outcome.returned _ => Ending.returned
  | Outcome.exited s => Ending.exited s
  | Outcome.execed => Ending.execed
  | Outcome.aborted => Ending.aborted
  | Outcome.undefined => Ending.undefined

/-- The record of one spawned process: its identity (the position of the
`fork` that created it, followed by the identity of its parent), its events
from the `fork` on, and how it ended. -/
structure ProcLog where
  id : List Nat
  trace : List Event
  ending : Ending
  deriving DecidableEq, Repr

/-- What the parent sees when `fork` fails. -/
def forkFailure (r : Reply) : Reply :=
  if r.ret < 0 then r else Reply.val (-1)

/-- Put one more event in front of the run of the process followed. -/
def consRoot {α : Type} (e : Event) (t : Run α × List ProcLog) : Run α × List ProcLog :=
  (t.1.cons e, t.2)

/-- Join the tree of a child, born at call `n` of process `id`, with the tree
of its parent after the `fork`. -/
def spawn {α : Type} (id : List Nat) (n : Nat) (child parent : Run α × List ProcLog) :
    Run α × List ProcLog :=
  (parent.1,
    ⟨n :: id, Event.sys Call.fork (Reply.val 0) :: child.1.trace, child.1.outcome.ending⟩
      :: (child.2 ++ parent.2))

/-- Follow the whole process tree.  The world answers the `n`-th call of the
process `id`.  A `fork` answered with a positive pid creates a child that runs
the same continuation with the answer `0`; the result is the run of the
process followed, and the logs of all its descendants: each child right
before its own descendants, children in the order they were forked. -/
def runTree {α : Type} :
    Prog α → (List Nat → Nat → Call → Reply) → List Nat → Nat → Run α × List ProcLog
  | Prog.ret a, _, _, n => (⟨[], Outcome.returned a, n⟩, [])
  | Prog.exit s, _, _, n => (⟨[], Outcome.exited s, n⟩, [])
  | Prog.abort, _, _, n => (⟨[], Outcome.aborted, n⟩, [])
  | Prog.ub, _, _, n => (⟨[], Outcome.undefined, n⟩, [])
  | Prog.act a k, w, id, n => consRoot (Event.act a) (runTree k w id n)
  | Prog.call c k, w, id, n =>
      if replaces c (w id n c) then (⟨[Event.sys c (w id n c)], Outcome.execed, n + 1⟩, [])
      else if c = Call.fork then
        if 0 < (w id n c).ret then
          spawn id n (runTree (k (Reply.val 0)) w (n :: id) 0)
            (consRoot (Event.sys c (w id n c)) (runTree (k (w id n c)) w id (n + 1)))
        else
          consRoot (Event.sys c (forkFailure (w id n c)))
            (runTree (k (forkFailure (w id n c))) w id (n + 1))
      else consRoot (Event.sys c (w id n c)) (runTree (k (w id n c)) w id (n + 1))

/-- The program an event execs successfully, if it does. -/
def Event.execed? : Event → Option (String × List String)
  | Event.sys (Call.execvp file argv) r => if r.ret = 0 then some (file, argv) else none
  | _ => none

/-- The programs a trace execs successfully, in order. -/
def execsOf (tr : List Event) : List (String × List String) :=
  tr.filterMap Event.execed?

/-- The pid an event forks successfully (as the parent), if it does. -/
def Event.forked? : Event → Option Int
  | Event.sys Call.fork r => if 0 < r.ret then some r.ret else none
  | _ => none

/-- The pids a trace forks successfully (as the parent), in order. -/
def forkedPids (tr : List Event) : List Int :=
  tr.filterMap Event.forked?

/-- The pid an event waits for successfully, if it does. -/
def Event.waited? : Event → Option Int
  | Event.sys (Call.waitpid pid _) r => if 0 ≤ r.ret then some pid else none
  | _ => none

/-- The pids a trace waits for successfully, in order.  `waitpid` with options
`0` succeeds only once the child has terminated. -/
def waitedPids (tr : List Event) : List Int :=
  tr.filterMap Event.waited?

/-- Whether an event is a failed `open`, `dup2` or `close`. -/
def Event.redirectionFailed : Event → Bool
  | Event.sys (Call.open_ _ _ _) r => decide (r.ret < 0)
  | Event.sys (Call.dup2 _ _) r => decide (r.ret < 0)
  | Event.sys (Call.close _) r => decide (r.ret < 0)
  | _ => false

/-- Whether a trace holds a failed `open`, `dup2` or `close`. -/
def redirectionFailed (tr : List Event) : Bool :=
  tr.any Event.redirectionFailed

/-- Whether an event is a call of `execvp`, successful or not. -/
def Event.callsExec : Event → Bool
  | Event.sys (Call.execvp _ _) _ => true
  | _ => false

/-- Whether a trace holds a call of `execvp`, successful or not. -/
def callsExec (tr : List Event) : Bool :=
  tr.any Event.callsExec

/-- Whether an event is a call of `chdir`, `pipe` or `fork`. -/
def Event.callsChdirPipeFork : Event → Bool
  | Event.sys (Call.chdir _) _ => true
  | Event.sys Call.pipe _ => true
  | Event.sys Call.fork _ => true
  | _ => false

/-- Whether a trace holds a call of `chdir`, `pipe` or `fork`. -/
def callsChdirPipeFork (tr : List Event) : Bool :=
  tr.any Event.callsChdirPipeFork

/-- The directory change of an event, with its result code. -/
def Event.chdir? : Event → Option (String × Int)
  | Event.sys (Call.chdir path) r => some (path, r.ret)
  | _ => none

/-- The directory changes of a trace, each with its result code, in order. -/
def chdirsOf (tr : List Event) : List (String × Int) :=
  tr.filterMap Event.chdir?

/-- The call of an event, if it is one whose result the code receives. -/
def Event.call? : Event → Option Call
  | Event.sys c _ => some c
  | Event.act _ => none

/-- The calls of a trace, without their replies and without the library calls
whose result is ignored. -/
def callsOf (tr : List Event) : List Call :=
  tr.filterMap Event.call?

/-! ## Descriptor tables -/

/-- What a descriptor refers to. -/
inductive Target where
  | pipeRead
  | pipeWrite
  | file (path : String) (flags : Nat)
  | inherited (fd : Int)
  deriving DecidableEq, Repr

/-- The effect of one event on the descriptor table of the process, for the
calls that succeeded: `pipe` installs its two ends, `open` installs the file,
`dup2 old new` makes `new` refer to what `old` refers to, `close` frees the
descriptor.  A `fork` leaves the table as it is: the child inherits it. -/
def fdStep (t : Int → Option Target) : Event → Int → Option Target
  | Event.sys Call.pipe r => fun fd =>
      if r.ret < 0 then t fd
      else if fd = r.fd1 then some Target.pipeWrite
      else if fd = r.fd0 then some Target.pipeRead
      else t fd
  | Event.sys (Call.open_ path flags _) r => fun fd =>
      if r.ret < 0 then t fd
      else if fd = r.ret then some (Target.file path flags)
      else t fd
  | Event.sys (Call.dup2 oldfd newfd) r => fun fd =>
      if r.ret < 0 then t fd
      else if fd = newfd then t oldfd
      else t fd
  | Event.sys (Call.close c) r => fun fd =>
      if r.ret < 0 then t fd
      else if fd = c then none
      else t fd
  | _ => t

/-- The descriptor table after a trace. -/
def fdsAfter (t : Int → Option Target) (tr : List Event) : Int → Option Target :=
  tr.foldl fdStep t

/-- The table of a shell whose three standard streams are open. -/
def stdFds : Int → Option Target := fun fd =>
  if 0 ≤ fd ∧ fd ≤ 2 then some (Target.inherited fd) else none

/-- Sequencing of runs: when the first run returned, the second one goes on
from where it stopped; otherwise the first run is the whole run. -/
def Run.andThen {α β : Type} (r : Run α) (g : α → Nat → Run β) : Run β :=
  match r.outcome with
  | Outcome.returned a => ⟨r.trace ++ (g a r.next).trace, (g a r.next).outcome, (g a r.next).next⟩
  | Outcome.exited s => ⟨r.trace, Outcome.exited s, r.next⟩
  | Outcome.execed => ⟨r.trace, Outcome.execed, r.next⟩
  | Outcome.aborted => ⟨r.trace, Outcome.aborted, r.next⟩
  | Outcome.undefined => ⟨r.trace, Outcome.undefined, r.next⟩

/-- The events that Redirection Setup asks for one stream: open the path with
the mode of the stream, rebind the standard descriptor to the opened one,
release the opened one; nothing for an absent path. -/
def redirected (path : Option String) (flags : Nat) (std : Int)
    (orc : Nat → Call → Reply) (n : Nat) : List Event :=
  match path with
  | none => []
  | some f =>
    [Event.sys (Call.open_ f flags 0o644) (orc n (Call.open_ f flags 0o644)),
     Event.sys (Call.dup2 (orc n (Call.open_ f flags 0o644)).ret std)
       (orc (n + 1) (Call.dup2 (orc n (Call.open_ f flags 0o644)).ret std)),
     Event.sys (Call.close (orc n (Call.open_ f flags 0o644)).ret)
       (orc (n + 2) (Call.close (orc n (Call.open_ f flags 0o644)).ret))]

/-- The number of calls Redirection Setup makes for one stream. -/
def redirectedCalls (path : Option String) : Nat :=
  match path with
  | none => 0
  | some _ => 3

/-- The replies a process gets as the parent of its `fork`s: a `fork` that
does not answer a positive pid has failed. -/
def parentView (o : Nat → Call → Reply) : Nat → Call → Reply :=
  fun n c => if c = Call.fork ∧ ¬ 0 < (o n c).ret then forkFailure (o n c) else o n c

/-- The oracle that answers the `n`-th call with the `n`-th reply of a list,
and with `0` past its end. -/
def oracleOf (l : List Reply) : Nat → Call → Reply :=
  fun n _ => l.getD n (Reply.val 0)

/-- The world in which each listed process is answered from its own list. -/
def worldOf (l : List (List Nat × List Reply)) : List Nat → Nat → Call → Reply :=
  fun id n c => oracleOf ((l.lookup id).getD []) n c

/-! ## Example inputs -/

/-- A command whose program does not exist. -/
def nonexistentCmd : Command := Command.mk ["nonexistent"] none none none none

/-- A command whose input file does not exist. -/
def catMissing : Command := Command.mk ["cat"] (some "missing.txt") none none none

/-- A command with all three redirections. -/
def sortAll : Command :=
  Command.mk ["sort", "-r"] (some "in.txt") (some "out.txt") (some "err.txt") none

/-- The two-stage chain `ls | wc`. -/
def lsWc : Command :=
  Command.mk ["ls"] none none none (some (Command.mk ["wc"] none none none none))

/-- The three-stage chain `ls | sort | wc`. -/
def lsSortWc : Command :=
  Command.mk ["ls"] none none none (some (Command.mk ["sort"] none none none
    (some (Command.mk ["wc"] none none none none))))

/-- The world in which every call succeeds: `fork` answers pid 100, `pipe`
answers the descriptors 3 and 4, `open` answers descriptor 3, every other call
answers 0. -/
def allSucceed : List Nat → Nat → Call → Reply :=
  fun _ _ c =>
    match c with
    | Call.fork => Reply.val 100
    | Call.pipe => ⟨0, 3, 4, none⟩
    | Call.open_ _ _ _ => Reply.val 3
    | _ => Reply.val 0

/-- Replies under which the three redirections of `sortAll` and its `execvp`
succeed: each `open` answers descriptor 3, each `dup2` its target. -/
def sortAllReplies : List Reply :=
  [Reply.val 3, Reply.val 0, Reply.val 0, Reply.val 3, Reply.val 1, Reply.val 0,
   Reply.val 3, Reply.val 2, Reply.val 0, Reply.val 0]

/-- Replies of the orchestrator of `ls | wc` when every call succeeds: pipe
descriptors 3 and 4, child A has pid 100, child B has pid 101. -/
def orchestratorReplies : List Reply :=
  [⟨0, 3, 4, none⟩, Reply.val 100, Reply.val 101, Reply.val 0, Reply.val 0, Reply.val 100,
   Reply.val 101]

/-- Replies of child A of `ls | wc` when every call succeeds: pipe descriptors
3 and 4, `fork` answers 0, `dup2` answers its target. -/
def childAReplies : List Reply :=
  [⟨0, 3, 4, none⟩, Reply.val 0, Reply.val 0, Reply.val 0, Reply.val 1, Reply.val 0]

/-- The events of child A of `ls | wc` up to its call of `run_program`. -/
def childASetup : List Event :=
  [Event.sys Call.pipe ⟨0, 3, 4, none⟩, Event.sys Call.fork (Reply.val 0),
   Event.sys (Call.close 3) (Reply.val 0), Event.sys (Call.close 1) (Reply.val 0),
   Event.sys (Call.dup2 4 1) (Reply.val 1)]

/-- Replies of child B of `ls | wc` when every call succeeds: the first `fork`
answers pid 100, the second answers 0, then `execute_command` on `wc` forks
pid 102 and waits for it. -/
def childBReplies : List Reply :=
  [⟨0, 3, 4, none⟩, Reply.val 100, Reply.val 0, Reply.val 0, Reply.val 0, Reply.val 0,
   Reply.val 102, Reply.val 102]

/-- The events of child B of `ls | wc` before it executes the rest of the
chain. -/
def childBSetup : List Event :=
  [Event.sys Call.pipe ⟨0, 3, 4, none⟩, Event.sys Call.fork (Reply.val 100),
   Event.sys Call.fork (Reply.val 0), Event.sys (Call.close 4) (Reply.val 0),
   Event.sys (Call.close 0) (Reply.val 0), Event.sys (Call.dup2 3 0) (Reply.val 0)]

/-! ## C library functions used by the code -/

/-- The cast `(size_t) v` of a `long` on a 64-bit machine. -/
def size_t (v : Int) : Nat := (v % 2 ^ 64).toNat

def isspace (c : Char) : Bool :=
  c == ' ' || (9 ≤ c.toNat && c.toNat ≤ 13)

/-- The C library `atoi`: skip white space, read an optional sign, then the
longest run of decimal digits; `0` when there is none. -/
def atoi (s : String) : Int :=
  let cs := s.data.dropWhile isspace
  let neg := cs.head? == some '-'
  let ds := if cs.head? == some '-' || cs.head? == some '+' then cs.tail else cs
  let v : Int := (ds.takeWhile Char.isDigit).foldl
    (fun acc d => acc * 10 + ((d.toNat : Int) - 48)) 0
  if neg then -v else v

/-! ## The functions of `execute.c` -/

/-- The builtin `exit` (`execute.c`, `execute_builtin_exit`). -/
def execute_builtin_exit (argv : List String) : Prog Int :=
  let status : Int :=
    match argv.head? with
    | some a0 => atoi a0
    | none => 0
  Prog.exit status

/-- The builtin `cd` (`execute.c`, `execute_builtin_cd`).  `argv[1]` is NULL
when the list has no second entry.  The buffer holds `(size_t) size` bytes;
`strcat` on a NULL `getcwd` result, or past the end of the buffer, is
undefined behaviour. -/
def execute_builtin_cd (argv : List String) : Prog Int := do
  let arg := argv[1]?
  match arg with
  | none =>
    printf "ERROR: please provide a valid path\n"
    return -1
  | some arg =>
    let is_absolute : Bool := arg.data.head? == some '/'
    if is_absolute then
      let status ← sys (Call.chdir arg)
      return status.ret
    else
      let size ← sys (Call.pathconf_PATH_MAX ".")
      let bytes : Nat := size_t size.ret
      let buf ← sys (Call.malloc bytes)
      let current_working_directory ←
        if buf.ret ≠ 0 then do
          let r ← sys (Call.getcwd bytes)
          pure r.str
        else do
          perror "malloc"
          Prog.exit EXIT_FAILURE
      match current_working_directory with
      | none => Prog.ub
      | some cwd =>
        if cwd.utf8ByteSize + 1 + arg.utf8ByteSize + 1 ≤ bytes then
          let status ← sys (Call.chdir (cwd ++ "/" ++ arg))
          free
          return status.ret
        else Prog.ub

/-- Set up the redirections and exec the program (`execute.c`,
`run_program`). -/
def run_program (cmd : Command) : Prog Int := do
  if let some in_filename := cmd.in_filename then
    let fd ← sys (Call.open_ in_filename O_RDONLY 0o644)
    if fd.ret < 0 then
      perror "open"
      Prog.exit EXIT_FAILURE
    if (← sys (Call.dup2 fd.ret STDIN_FILENO)).ret < 0 then
      perror "dup2"
      return EXIT_FAILURE
    if (← sys (Call.close fd.ret)).ret < 0 then
      perror "close"
      Prog.exit EXIT_FAILURE
  if let some out_filename := cmd.out_filename then
    let fd ← sys (Call.open_ out_filename (O_WRONLY ||| O_CREAT ||| O_TRUNC) 0o644)
    if fd.ret < 0 then
      perror "open"
      Prog.exit EXIT_FAILURE
    if (← sys (Call.dup2 fd.ret STDOUT_FILENO)).ret < 0 then
      perror "dup2"
      return EXIT_FAILURE
    if (← sys (Call.close fd.ret)).ret < 0 then
      perror "close"
      Prog.exit EXIT_FAILURE
  if let some err_filename := cmd.err_filename then
    let fd ← sys (Call.open_ err_filename (O_RDWR ||| O_APPEND) 0o644)
    if fd.ret < 0 then
      perror "open"
      Prog.exit EXIT_FAILURE
    if (← sys (Call.dup2 fd.ret STDERR_FILENO)).ret < 0 then
      perror "dup2"
      return EXIT_FAILURE
    if (← sys (Call.close fd.ret)).ret < 0 then
      perror "close"
      Prog.exit EXIT_FAILURE
  match cmd.argv with
  | [] => Prog.ub
  | bin_name :: _ =>
    if (← sys (Call.execvp bin_name cmd.argv)).ret ≠ 0 then
      fprintf_stderr "incorrect spelling or doesn't exist: \"%s\" \n" bin_name
      perror ""
      return -1
    return EXIT_FAILURE

/-- Two commands joined by a pipe (`execute.c`, `execute_command_with_pipe`).
`exec_next` is the program of the call `execute_command(cmd->pipe_to)`. -/
def execute_command_with_pipe (cmd : Command) (exec_next : Prog Int) : Prog Int := do
  if cmd.pipe_to.isNone then
    Prog.abort
  let pipefds ← sys Call.pipe
  if pipefds.ret < 0 then
    perror "pipe"
    return EXIT_FAILURE
  let child1 ← sys Call.fork
  if child1.ret < 0 then
    perror "fork"
    Prog.exit 1
  if child1.ret = 0 then
    if (← sys (Call.close pipefds.fd0)).ret < 0 then
      perror "close"
      Prog.exit 1
    if (← sys (Call.close STDOUT_FILENO)).ret < 0 then
      perror "close"
      Prog.exit EXIT_FAILURE
    if (← sys (Call.dup2 pipefds.fd1 STDOUT_FILENO)).ret < 0 then
      perror "dup2"
      Prog.exit 1
    if (← run_program cmd) ≠ 0 then
      Prog.exit EXIT_FAILURE
    Prog.exit 0
  else
    let child2 ← sys Call.fork
    if child2.ret < 0 then
      perror "fork"
      printf "child 2 failed to fork \n"
      return EXIT_FAILURE
    if child2.ret = 0 then
      if (← sys (Call.close pipefds.fd1)).ret < 0 then
        perror "close"
        Prog.exit EXIT_FAILURE
      if (← sys (Call.close STDIN_FILENO)).ret < 0 then
        perror "close"
        Prog.exit EXIT_FAILURE
      if (← sys (Call.dup2 pipefds.fd0 STDIN_FILENO)).ret < 0 then
        perror "dup2"
        Prog.exit EXIT_FAILURE
      let _ ← exec_next
      Prog.exit 0
    else
      if (← sys (Call.close pipefds.fd0)).ret < 0 then
        perror "close"
        Prog.exit EXIT_FAILURE
      if (← sys (Call.close pipefds.fd1)).ret < 0 then
        perror "close"
        Prog.exit EXIT_FAILURE
      let mode := 0
      if (← sys (Call.waitpid child1.ret mode)).ret < 0 then
        perror "waitpid"
        Prog.exit EXIT_FAILURE
      if (← sys (Call.waitpid child2.ret mode)).ret < 0 then
        perror "waitpid"
        Prog.exit EXIT_FAILURE
  return EXIT_SUCCESS

/-- Execute a command, with or without pipes (`execute.c`, `execute_command`).
`strcmp` on a NULL `argv[0]` is undefined behaviour. -/
def execute_command : Command → Prog Int
  | Command.mk argv i o e pipe_to =>
    match argv with
    | [] => Prog.ub
    | name :: _ =>
      if name = "cd" then execute_builtin_cd argv
      else if name = "exit" then execute_builtin_exit argv
      else
        match pipe_to with
        | none => do
          let child ← sys Call.fork
          if child.ret < 0 then
            perror "fork"
            return -1
          if child.ret = 0 then
            let _ ← run_program (Command.mk argv i o e none)
            Prog.exit 0
          else
            let mode := 0
            if (← sys (Call.waitpid child.ret mode)).ret < 0 then
              perror "waitpid"
              Prog.exit EXIT_FAILURE
          return 0
        | some next =>
          execute_command_with_pipe (Command.mk argv i o e (some next)) (execute_command next)

/-! ## The blocks of the functions, named -/

/-- The shape the three redirection blocks of `run_program` share: for a
present path, open, rebind, release, each call checked as in the source (a
failed `open` or `close` exits, a failed `dup2` returns EXIT_FAILURE); then
the rest of the function. -/
def redirect (path : Option String) (flags : Nat) (std : Int) (rest : Prog Int) : Prog Int :=
  match path with
  | none => rest
  | some f =>
    Prog.call (Call.open_ f flags 0o644) fun fd =>
      if fd.ret < 0 then Prog.act (Act.perror "open") (Prog.exit EXIT_FAILURE)
      else Prog.call (Call.dup2 fd.ret std) fun r =>
        if r.ret < 0 then Prog.act (Act.perror "dup2") (Prog.ret EXIT_FAILURE)
        else Prog.call (Call.close fd.ret) fun r =>
          if r.ret < 0 then Prog.act (Act.perror "close") (Prog.exit EXIT_FAILURE)
          else rest

/-- The last block of `run_program`: exec the program, report a failure. -/
def exec_part (bin_name : String) (argv : List String) : Prog Int :=
  Prog.call (Call.execvp bin_name argv) fun r =>
    if r.ret ≠ 0 then
      Prog.act (Act.fprintf_stderr "incorrect spelling or doesn't exist: \"%s\" \n" bin_name)
        (Prog.act (Act.perror "") (Prog.ret (-1)))
    else Prog.ret EXIT_FAILURE

/-- The body of child A in `execute_command_with_pipe`. -/
def child1_body (cmd : Command) (pipefds : Reply) : Prog Int :=
  Prog.call (Call.close pipefds.fd0) fun r =>
    if r.ret < 0 then Prog.act (Act.perror "close") (Prog.exit 1)
    else Prog.call (Call.close STDOUT_FILENO) fun r =>
      if r.ret < 0 then Prog.act (Act.perror "close") (Prog.exit EXIT_FAILURE)
      else Prog.call (Call.dup2 pipefds.fd1 STDOUT_FILENO) fun r =>
        if r.ret < 0 then Prog.act (Act.perror "dup2") (Prog.exit 1)
        else (run_program cmd).bind fun status =>
          if status ≠ 0 then Prog.exit EXIT_FAILURE else Prog.exit 0

/-- The body of child B in `execute_command_with_pipe`. -/
def child2_body (pipefds : Reply) (exec_next : Prog Int) : Prog Int :=
  Prog.call (Call.close pipefds.fd1) fun r =>
    if r.ret < 0 then Prog.act (Act.perror "close") (Prog.exit EXIT_FAILURE)
    else Prog.call (Call.close STDIN_FILENO) fun r =>
      if r.ret < 0 then Prog.act (Act.perror "close") (Prog.exit EXIT_FAILURE)
      else Prog.call (Call.dup2 pipefds.fd0 STDIN_FILENO) fun r =>
        if r.ret < 0 then Prog.act (Act.perror "dup2") (Prog.exit EXIT_FAILURE)
        else exec_next.bind fun _ => Prog.exit 0

/-- The body of the orchestrator in `execute_command_with_pipe`, after the
two `fork`s. -/
def parent_body (pipefds child1 child2 : Reply) : Prog Int :=
  Prog.call (Call.close pipefds.fd0) fun r =>
    if r.ret < 0 then Prog.act (Act.perror "close") (Prog.exit EXIT_FAILURE)
    else Prog.call (Call.close pipefds.fd1) fun r =>
      if r.ret < 0 then Prog.act (Act.perror "close") (Prog.exit EXIT_FAILURE)
      else Prog.call (Call.waitpid child1.ret 0) fun r =>
        if r.ret < 0 then Prog.act (Act.perror "waitpid") (Prog.exit EXIT_FAILURE)
        else Prog.call (Call.waitpid child2.ret 0) fun r =>
          if r.ret < 0 then Prog.act (Act.perror "waitpid") (Prog.exit EXIT_FAILURE)
          else Prog.ret EXIT_SUCCESS

/-- The last block of `run_program` for any argument vector: `argv[0]` is
NULL when the vector is empty. -/
def exec_or_ub (argv : List String) : Prog Int :=
  match argv with
  | [] => Prog.ub
  | bin_name :: _ => exec_part bin_name argv

/-- The event of the `n`-th call of a process, with the oracle's reply. -/
def ev (orc : Nat → Call → Reply) (n : Nat) (c : Call) : Event :=
  Event.sys c (orc n c)

/-- Put events in front of a run. -/
def Run.prepend {α : Type} (l : List Event) (r : Run α) : Run α :=
  ⟨l ++ r.trace, r.outcome, r.next⟩

/-- The run of a process that exits with `status` without any further event. -/
def exitsWith (status : Int) (m : Nat) : Run Int :=
  ⟨[], Outcome.exited status, m⟩

/-! ## Predicates on commands, worlds and programs -/

/-- A stage whose program is neither missing nor one of the builtins. -/
def isExternal (cmd : Command) : Bool :=
  match cmd.argv with
  | [] => false
  | name :: _ => name != "cd" && name != "exit"

/-- The program a stage execs: `argv[0]`, with the whole `argv`. -/
def programOf (cmd : Command) : String × List String :=
  (cmd.argv.headD "", cmd.argv)

/-- A reply that reports success: a positive pid for `fork`, `0` for `execvp`
(the image is replaced), a non-negative value for every other call. -/
def Succeeds : Call → Reply → Prop
  | Call.fork, r => 0 < r.ret
  | Call.execvp _ _, r => r.ret = 0
  | _, r => 0 ≤ r.ret

/-- A world in which every call of every process succeeds. -/
def AllSucceed (w : List Nat → Nat → Call → Reply) : Prop :=
  ∀ id n c, Succeeds c (w id n c)

/-- A program that never calls `fork`. -/
def noFork {α : Type} : Prog α → Prop
  | Prog.ret _ => True
  | Prog.call c k => c ≠ Call.fork ∧ ∀ r, noFork (k r)
  | Prog.act _ k => noFork k
  | Prog.exit _ => True
  | Prog.abort => True
  | Prog.ub => True

/-- All the programs execed in a process tree: by the process followed, then
by its descendants in the order of their logs. -/
def treeExecs {α : Type} (t : Run α × List ProcLog) : List (String × List String) :=
  execsOf t.1.trace ++ (t.2.map (fun l => execsOf l.trace)).flatten

/-- The logs of the processes that ended by a successful `execvp`. -/
def execedLogs (logs : List ProcLog) : List ProcLog :=
  logs.filter (fun l => l.ending == Ending.execed)

/-! ## Unfolding lemmas -/

theorem bind_eq {α β : Type} (p : Prog α) (f : α → Prog β) : (p >>= f) = Prog.bind p f := rfl

theorem pure_eq {α : Type} (a : α) : (pure a : Prog α) = Prog.ret a := rfl

theorem execute_command_cons (name : String) (args : List String) (i o e : Option String)
    (p : Option Command) :
    execute_command (Command.mk (name :: args) i o e p) =
      if name = "cd" then execute_builtin_cd (name :: args)
      else if name = "exit" then execute_builtin_exit (name :: args)
      else
        match p with
        | none => do
          let child ← sys Call.fork
          if child.ret < 0 then
            perror "fork"
            return -1
          if child.ret = 0 then
            let _ ← run_program (Command.mk (name :: args) i o e none)
            Prog.exit 0
          else
            let mode := 0
            if (← sys (Call.waitpid child.ret mode)).ret < 0 then
              perror "waitpid"
              Prog.exit EXIT_FAILURE
          return 0
        | some next =>
          execute_command_with_pipe (Command.mk (name :: args) i o e (some next))
            (execute_command next) := by
  rw [execute_command.eq_def]

/-! ## Trace observers on `[]`, `::` and `++` -/

@[simp] theorem redirectionFailed_nil : redirectionFailed [] = false := rfl

@[simp] theorem redirectionFailed_cons (e : Event) (t : List Event) :
    redirectionFailed (e :: t) = (e.redirectionFailed || redirectionFailed t) := rfl

@[simp] theorem redirectionFailed_append (a b : List Event) :
    redirectionFailed (a ++ b) = (redirectionFailed a || redirectionFailed b) := by
  simp [redirectionFailed]

@[simp] theorem callsExec_nil : callsExec [] = false := rfl

@[simp] theorem callsExec_cons (e : Event) (t : List Event) :
    callsExec (e :: t) = (e.callsExec || callsExec t) := rfl

@[simp] theorem callsExec_append (a b : List Event) :
    callsExec (a ++ b) = (callsExec a || callsExec b) := by
  simp [callsExec]

@[simp] theorem callsChdirPipeFork_nil : callsChdirPipeFork [] = false := rfl

@[simp] theorem callsChdirPipeFork_cons (e : Event) (t : List Event) :
    callsChdirPipeFork (e :: t) = (e.callsChdirPipeFork || callsChdirPipeFork t) := rfl

@[simp] theorem callsChdirPipeFork_append (a b : List Event) :
    callsChdirPipeFork (a ++ b) = (callsChdirPipeFork a || callsChdirPipeFork b) := by
  simp [callsChdirPipeFork]

@[simp] theorem execsOf_nil : execsOf [] = [] := rfl

theorem execsOf_cons (e : Event) (t : List Event) :
    execsOf (e :: t) = (e.execed?).toList ++ execsOf t := by
  cases h : e.execed? <;> simp [execsOf, List.filterMap_cons, h]

@[simp] theorem execsOf_append (a b : List Event) :
    execsOf (a ++ b) = execsOf a ++ execsOf b := by
  simp [execsOf]

@[simp] theorem forkedPids_nil : forkedPids [] = [] := rfl

theorem forkedPids_cons (e : Event) (t : List Event) :
    forkedPids (e :: t) = (e.forked?).toList ++ forkedPids t := by
  cases h : e.forked? <;> simp [forkedPids, List.filterMap_cons, h]

@[simp] theorem forkedPids_append (a b : List Event) :
    forkedPids (a ++ b) = forkedPids a ++ forkedPids b := by
  simp [forkedPids]

@[simp] theorem waitedPids_nil : waitedPids [] = [] := rfl

theorem waitedPids_cons (e : Event) (t : List Event) :
    waitedPids (e :: t) = (e.waited?).toList ++ waitedPids t := by
  cases h : e.waited? <;> simp [waitedPids, List.filterMap_cons, h]

@[simp] theorem waitedPids_append (a b : List Event) :
    waitedPids (a ++ b) = waitedPids a ++ waitedPids b := by
  simp [waitedPids]

@[simp] theorem chdirsOf_nil : chdirsOf [] = [] := rfl

theorem chdirsOf_cons (e : Event) (t : List Event) :
    chdirsOf (e :: t) = (e.chdir?).toList ++ chdirsOf t := by
  cases h : e.chdir? <;> simp [chdirsOf, List.filterMap_cons, h]

@[simp] theorem chdirsOf_append (a b : List Event) :
    chdirsOf (a ++ b) = chdirsOf a ++ chdirsOf b := by
  simp [chdirsOf]

@[simp] theorem callsOf_nil : callsOf [] = [] := rfl

theorem callsOf_cons (e : Event) (t : List Event) :
    callsOf (e :: t) = (e.call?).toList ++ callsOf t := by
  cases h : e.call? <;> simp [callsOf, List.filterMap_cons, h]

@[simp] theorem callsOf_append (a b : List Event) :
    callsOf (a ++ b) = callsOf a ++ callsOf b := by
  simp [callsOf]

/-! ## Sequencing -/

theorem runP_ite {α : Type} (c : Prop) [Decidable c] (p q : Prog α) (orc : Nat → Call → Reply)
    (n : Nat) : runP (if c then p else q) orc n = if c then runP p orc n else runP q orc n := by
  split <;> rfl

@[simp] theorem Run.cons_mk {α : Type} (e : Event) (t : List Event) (out : Outcome α) (n : Nat) :
    Run.cons e ⟨t, out, n⟩ = ⟨e :: t, out, n⟩ := rfl

@[simp] theorem consRoot_mk {α : Type} (e : Event) (t : List Event) (out : Outcome α) (n : Nat)
    (l : List ProcLog) : consRoot e ((⟨t, out, n⟩ : Run α), l) = (⟨e :: t, out, n⟩, l) := rfl

theorem Run.cons_andThen {α β : Type} (e : Event) (r : Run α) (g : α → Nat → Run β) :
    (Run.cons e r).andThen g = Run.cons e (r.andThen g) := by
  cases h : r.outcome <;> simp [Run.andThen, Run.cons, h]

theorem runP_ret {α : Type} (a : α) (orc : Nat → Call → Reply) (n : Nat) :
    runP (Prog.ret a) orc n = ⟨[], Outcome.returned a, n⟩ := rfl

theorem runP_act {α : Type} (a : Act) (k : Prog α) (orc : Nat → Call → Reply) (n : Nat) :
    runP (Prog.act a k) orc n = Run.cons (Event.act a) (runP k orc n) := rfl

theorem runP_call {α : Type} (c : Call) (k : Reply → Prog α) (orc : Nat → Call → Reply)
    (n : Nat) (h : replaces c (orc n c) = false) :
    runP (Prog.call c k) orc n = Run.cons (ev orc n c) (runP (k (orc n c)) orc (n + 1)) := by
  simp [runP, h, ev]

theorem exited_ite (c : Prop) [Decidable c] (a b : Int) (m : Nat) :
    (if c then (⟨[], Outcome.exited a, m⟩ : Run Int) else ⟨[], Outcome.exited b, m⟩)
      = ⟨[], Outcome.exited (if c then a else b), m⟩ := by
  split <;> rfl

theorem andThen_exitsWith_trace (r : Run Int) (s : Int → Int) :
    (r.andThen (fun a m => exitsWith (s a) m)).trace = r.trace := by
  cases h : r.outcome <;> simp [Run.andThen, exitsWith, h]

theorem andThen_exitsWith_outcome (r : Run Int) (s : Int → Int) :
    (r.andThen (fun a m => exitsWith (s a) m)).outcome =
      match r.outcome with
      | Outcome.returned a => Outcome.exited (s a)
      | Outcome.exited c => Outcome.exited c
      | Outcome.execed => Outcome.execed
      | Outcome.aborted => Outcome.aborted
      | Outcome.undefined => Outcome.undefined := by
  cases h : r.outcome <;> simp [Run.andThen, exitsWith, h]

theorem runP_exit (a : Int) (orc : Nat → Call → Reply) (m : Nat) :
    runP (Prog.exit a : Prog Int) orc m = exitsWith a m := rfl

theorem runP_bind {α β : Type} (p : Prog α) (f : α → Prog β) (orc : Nat → Call → Reply) :
    ∀ n, runP (Prog.bind p f) orc n = (runP p orc n).andThen (fun a m => runP (f a) orc m) := by
  induction p with
  | ret a => intro n; simp [Prog.bind, runP, Run.andThen]
  | call c k ih =>
    intro n
    simp only [Prog.bind, runP]
    split
    · simp [Run.andThen]
    · rw [ih, Run.cons_andThen]
  | act a k ih =>
    intro n
    simp only [Prog.bind, runP]
    rw [ih, Run.cons_andThen]
  | exit s => intro n; simp [Prog.bind, runP, Run.andThen]
  | abort => intro n; simp [Prog.bind, runP, Run.andThen]
  | ub => intro n; simp [Prog.bind, runP, Run.andThen]

/-! ## The builtins -/

/-- C1 (as the code behaves): whatever follows "exit" in argv, for instance
argv = ["exit", "7"], the builtin reads its status from argv[0], the word
"exit" itself, so the process terminates with status 0; it never returns. -/
theorem execute_builtin_exit_status_is_zero (rest : List String) (i o e : Option String)
    (p : Option Command) (orc : Nat → Call → Reply) (n : Nat) :
    runP (execute_command (Command.mk ("exit" :: rest) i o e p)) orc n
      = ⟨[], Outcome.exited 0, n⟩ := by
  have h : atoi "exit" = 0 := by decide
  rw [execute_command_cons]
  simp [execute_builtin_exit, runP, h]

/-- C3: a "cd" without a path argument returns the failure status -1, whatever
the redirections and the next link; its only event is the error message, so
there is no chdir, no pipe and no fork, and no process is spawned. -/
theorem cd_without_argument_fails_without_side_effect (i o e : Option String)
    (p : Option Command) (orc : Nat → Call → Reply) (w : List Nat → Nat → Call → Reply)
    (id : List Nat) (n : Nat) :
    (runP (execute_command (Command.mk ["cd"] i o e p)) orc n).outcome = Outcome.returned (-1)
    ∧ (-1 : Int) ≠ 0
    ∧ (runP (execute_command (Command.mk ["cd"] i o e p)) orc n).trace
        = [Event.act (Act.printf "ERROR: please provide a valid path\n")]
    ∧ callsChdirPipeFork (runP (execute_command (Command.mk ["cd"] i o e p)) orc n).trace = false
    ∧ (runTree (execute_command (Command.mk ["cd"] i o e p)) w id n).2 = [] := by
  rw [execute_command_cons]
  simp [execute_builtin_cd, bind_eq, pure_eq, Prog.bind, printf, runP, runTree,
    Event.callsChdirPipeFork]

/-- C4 (as stated, refuted): with argv = ["cd", "sub"], when the buffer for
the current directory cannot be allocated, no directory change is issued and
the process exits with EXIT_FAILURE instead of returning a result code. -/
theorem cd_relative_allocation_failure :
    chdirsOf (runP (execute_builtin_cd ["cd", "sub"])
        (oracleOf [Reply.val 4096, Reply.val 0]) 0).trace = []
    ∧ (runP (execute_builtin_cd ["cd", "sub"])
        (oracleOf [Reply.val 4096, Reply.val 0]) 0).outcome = Outcome.exited EXIT_FAILURE := by
  decide

/-- C4 (amended): for argv = ["cd", p, ...], an absolute p yields exactly one
chdir, to p itself; a relative p yields, when the buffer is allocated, getcwd
returns cwd and the joined path fits the buffer, exactly one chdir, to
cwd ++ "/" ++ p; in both cases the value returned is the result of that chdir.
For a relative p whose buffer cannot be allocated (malloc returns NULL), no
chdir is issued and the process exits with EXIT_FAILURE. -/
theorem cd_issues_one_chdir_and_returns_its_result (p : String) (rest : List String)
    (orc : Nat → Call → Reply) (n : Nat) :
    (p.data.head? = some '/' →
      chdirsOf (runP (execute_builtin_cd ("cd" :: p :: rest)) orc n).trace
          = [(p, (orc n (Call.chdir p)).ret)]
      ∧ (runP (execute_builtin_cd ("cd" :: p :: rest)) orc n).outcome
          = Outcome.returned (orc n (Call.chdir p)).ret)
    ∧ (∀ cwd : String, p.data.head? ≠ some '/' →
      (orc (n + 1) (Call.malloc (size_t (orc n (Call.pathconf_PATH_MAX ".")).ret))).ret ≠ 0 →
      (orc (n + 2) (Call.getcwd (size_t (orc n (Call.pathconf_PATH_MAX ".")).ret))).str
        = some cwd →
      cwd.utf8ByteSize + 1 + p.utf8ByteSize + 1
        ≤ size_t (orc n (Call.pathconf_PATH_MAX ".")).ret →
      chdirsOf (runP (execute_builtin_cd ("cd" :: p :: rest)) orc n).trace
          = [(cwd ++ "/" ++ p, (orc (n + 3) (Call.chdir (cwd ++ "/" ++ p))).ret)]
      ∧ (runP (execute_builtin_cd ("cd" :: p :: rest)) orc n).outcome
          = Outcome.returned (orc (n + 3) (Call.chdir (cwd ++ "/" ++ p))).ret)
    ∧ (p.data.head? ≠ some '/' →
      (orc (n + 1) (Call.malloc (size_t (orc n (Call.pathconf_PATH_MAX ".")).ret))).ret = 0 →
      chdirsOf (runP (execute_builtin_cd ("cd" :: p :: rest)) orc n).trace = []
      ∧ (runP (execute_builtin_cd ("cd" :: p :: rest)) orc n).trace
          = [Event.sys (Call.pathconf_PATH_MAX ".") (orc n (Call.pathconf_PATH_MAX ".")),
             Event.sys (Call.malloc (size_t (orc n (Call.pathconf_PATH_MAX ".")).ret))
               (orc (n + 1) (Call.malloc (size_t (orc n (Call.pathconf_PATH_MAX ".")).ret))),
             Event.act (Act.perror "malloc")]
      ∧ (runP (execute_builtin_cd ("cd" :: p :: rest)) orc n).outcome
          = Outcome.exited EXIT_FAILURE) := by
  refine ⟨?_, ?_, ?_⟩
  · intro h
    simp [execute_builtin_cd, bind_eq, pure_eq, Prog.bind, runP, h, sys, replaces, chdirsOf_cons,
      Event.chdir?]
  · intro cwd h hm hc hfit
    simp [execute_builtin_cd, bind_eq, pure_eq, Prog.bind, runP, h, hm, hc, hfit, sys, replaces,
      chdirsOf_cons, Event.chdir?, free]
  · intro h hm
    simp [execute_builtin_cd, bind_eq, pure_eq, Prog.bind, runP, h, hm, sys, replaces,
      chdirsOf_cons, Event.chdir?, perror]

/-- C4 (amended), at the inputs ["cd", "/tmp"], ["cd", "sub"] in "/home", and
["cd", "docs"] when the buffer cannot be allocated. -/
theorem cd_issues_one_chdir_witness :
    (chdirsOf (runP (execute_builtin_cd ["cd", "/tmp"]) (oracleOf [Reply.val (-1)]) 0).trace
        = [("/tmp", -1)]
      ∧ (runP (execute_builtin_cd ["cd", "/tmp"]) (oracleOf [Reply.val (-1)]) 0).outcome
        = Outcome.returned (-1))
    ∧ (chdirsOf (runP (execute_builtin_cd ["cd", "sub"])
          (oracleOf [Reply.val 4096, Reply.val 1, ⟨1, 0, 0, some "/home"⟩, Reply.val 0]) 0).trace
        = [("/home/sub", 0)]
      ∧ (runP (execute_builtin_cd ["cd", "sub"])
          (oracleOf [Reply.val 4096, Reply.val 1, ⟨1, 0, 0, some "/home"⟩, Reply.val 0]) 0).outcome
        = Outcome.returned 0)
    ∧ (chdirsOf (runP (execute_builtin_cd ["cd", "docs"])
          (oracleOf [Reply.val 4096, Reply.val 0]) 0).trace = []
      ∧ (runP (execute_builtin_cd ["cd", "docs"])
          (oracleOf [Reply.val 4096, Reply.val 0]) 0).outcome = Outcome.exited EXIT_FAILURE) :=
  ⟨(cd_issues_one_chdir_and_returns_its_result "/tmp" [] (oracleOf [Reply.val (-1)]) 0).1
      (by decide),
   (cd_issues_one_chdir_and_returns_its_result "sub" []
      (oracleOf [Reply.val 4096, Reply.val 1, ⟨1, 0, 0, some "/home"⟩, Reply.val 0]) 0).2.1
      "/home" (by decide) (by decide) (by decide) (by decide),
   ⟨((cd_issues_one_chdir_and_returns_its_result "docs" []
      (oracleOf [Reply.val 4096, Reply.val 0]) 0).2.2 (by decide) (by decide)).1,
    ((cd_issues_one_chdir_and_returns_its_result "docs" []
      (oracleOf [Reply.val 4096, Reply.val 0]) 0).2.2 (by decide) (by decide)).2.2⟩⟩

/-! ## `run_program` -/

theorem run_program_eq' (argv : List String) (i o e : Option String) (p : Option Command) :
    run_program (Command.mk argv i o e p) =
      redirect i O_RDONLY STDIN_FILENO
        (redirect o (O_WRONLY ||| O_CREAT ||| O_TRUNC) STDOUT_FILENO
          (redirect e (O_RDWR ||| O_APPEND) STDERR_FILENO (exec_or_ub argv))) := by
  cases argv <;> cases i <;> cases o <;> cases e <;>
    simp only [run_program, bind_eq, pure_eq, Prog.bind, Command.in_filename,
      Command.out_filename, Command.err_filename, Command.argv, sys, perror, fprintf_stderr,
      redirect, exec_part, exec_or_ub]

theorem run_program_eq (name : String) (args : List String) (i o e : Option String)
    (p : Option Command) :
    run_program (Command.mk (name :: args) i o e p) =
      redirect i O_RDONLY STDIN_FILENO
        (redirect o (O_WRONLY ||| O_CREAT ||| O_TRUNC) STDOUT_FILENO
          (redirect e (O_RDWR ||| O_APPEND) STDERR_FILENO (exec_part name (name :: args)))) :=
  run_program_eq' (name :: args) i o e p

theorem runP_redirect_some (f : String) (flags : Nat) (std : Int) (rest : Prog Int)
    (orc : Nat → Call → Reply) (n : Nat) :
    runP (redirect (some f) flags std rest) orc n =
      if (orc n (Call.open_ f flags 0o644)).ret < 0 then
        ⟨[Event.sys (Call.open_ f flags 0o644) (orc n (Call.open_ f flags 0o644)),
          Event.act (Act.perror "open")], Outcome.exited EXIT_FAILURE, n + 1⟩
      else if (orc (n + 1) (Call.dup2 (orc n (Call.open_ f flags 0o644)).ret std)).ret < 0 then
        ⟨[Event.sys (Call.open_ f flags 0o644) (orc n (Call.open_ f flags 0o644)),
          Event.sys (Call.dup2 (orc n (Call.open_ f flags 0o644)).ret std)
            (orc (n + 1) (Call.dup2 (orc n (Call.open_ f flags 0o644)).ret std)),
          Event.act (Act.perror "dup2")], Outcome.returned EXIT_FAILURE, n + 2⟩
      else if (orc (n + 2) (Call.close (orc n (Call.open_ f flags 0o644)).ret)).ret < 0 then
        ⟨[Event.sys (Call.open_ f flags 0o644) (orc n (Call.open_ f flags 0o644)),
          Event.sys (Call.dup2 (orc n (Call.open_ f flags 0o644)).ret std)
            (orc (n + 1) (Call.dup2 (orc n (Call.open_ f flags 0o644)).ret std)),
          Event.sys (Call.close (orc n (Call.open_ f flags 0o644)).ret)
            (orc (n + 2) (Call.close (orc n (Call.open_ f flags 0o644)).ret)),
          Event.act (Act.perror "close")], Outcome.exited EXIT_FAILURE, n + 3⟩
      else
        ⟨redirected (some f) flags std orc n ++ (runP rest orc (n + 3)).trace,
          (runP rest orc (n + 3)).outcome, (runP rest orc (n + 3)).next⟩ := by
  simp only [redirect, runP, runP_ite, replaces, redirected]
  split_ifs <;> simp_all [Run.cons]

theorem runP_exec_part (name : String) (argv : List String) (orc : Nat → Call → Reply) (n : Nat) :
    runP (exec_part name argv) orc n =
      if (orc n (Call.execvp name argv)).ret = 0 then
        ⟨[Event.sys (Call.execvp name argv) (orc n (Call.execvp name argv))], Outcome.execed, n + 1⟩
      else
        ⟨[Event.sys (Call.execvp name argv) (orc n (Call.execvp name argv)),
          Event.act (Act.fprintf_stderr "incorrect spelling or doesn't exist: \"%s\" \n" name),
          Event.act (Act.perror "")], Outcome.returned (-1), n + 1⟩ := by
  simp only [exec_part, runP, runP_ite, replaces]
  split_ifs <;> simp_all [Run.cons]

/-- When no redirection call fails, a redirection block contributes exactly
the events of `redirected`, and the rest of the function runs after it. -/
theorem runP_redirect_ok (path : Option String) (flags : Nat) (std : Int) (rest : Prog Int)
    (orc : Nat → Call → Reply) (n : Nat)
    (hok : redirectionFailed (runP (redirect path flags std rest) orc n).trace = false) :
    runP (redirect path flags std rest) orc n
      = ⟨redirected path flags std orc n ++ (runP rest orc (n + redirectedCalls path)).trace,
          (runP rest orc (n + redirectedCalls path)).outcome,
          (runP rest orc (n + redirectedCalls path)).next⟩
    ∧ redirectionFailed (runP rest orc (n + redirectedCalls path)).trace = false := by
  cases path with
  | none => exact ⟨by simp [redirect, redirected, redirectedCalls], by simpa [redirect] using hok⟩
  | some f =>
    rw [runP_redirect_some] at hok ⊢
    split_ifs at hok ⊢ <;>
      simp_all [Event.redirectionFailed, redirected, redirectedCalls]

/-- A failed redirection call ends a redirection block without running the
rest of the function: the block exits or returns EXIT_FAILURE. -/
theorem runP_redirect_failed (path : Option String) (flags : Nat) (std : Int) (rest : Prog Int)
    (orc : Nat → Call → Reply) (n : Nat)
    (hbad : redirectionFailed (runP (redirect path flags std rest) orc n).trace = true) :
    (callsExec (runP (redirect path flags std rest) orc n).trace = false
      ∧ ((runP (redirect path flags std rest) orc n).outcome = Outcome.exited EXIT_FAILURE
        ∨ (runP (redirect path flags std rest) orc n).outcome = Outcome.returned EXIT_FAILURE))
    ∨ (runP (redirect path flags std rest) orc n
        = ⟨redirected path flags std orc n ++ (runP rest orc (n + redirectedCalls path)).trace,
          (runP rest orc (n + redirectedCalls path)).outcome,
          (runP rest orc (n + redirectedCalls path)).next⟩
      ∧ callsExec (redirected path flags std orc n) = false
      ∧ redirectionFailed (runP rest orc (n + redirectedCalls path)).trace = true) := by
  cases path with
  | none =>
    right
    exact ⟨by simp [redirect, redirected, redirectedCalls], by simp [redirected],
      by simpa [redirect] using hbad⟩
  | some f =>
    rw [runP_redirect_some] at hbad ⊢
    split_ifs at hbad ⊢ <;>
      simp_all [Event.redirectionFailed, redirected, redirectedCalls, Event.callsExec]
    right
    rcases hbad with h | h | h | h
    · omega
    · omega
    · omega
    · exact h

/-! ## The paths of `execute_command` -/

/-- Every path of a command that is not a builtin and has no next link: the
`fork` fails; or this is the child (answer `0`), which runs `run_program` and
then exits with status 0; or this is the parent, which waits. -/
theorem runP_single (name : String) (args : List String) (i o e : Option String)
    (orc : Nat → Call → Reply) (n : Nat) (hcd : name ≠ "cd") (hexit : name ≠ "exit") :
    runP (execute_command (Command.mk (name :: args) i o e none)) orc n =
      if (orc n Call.fork).ret < 0 then
        ⟨[ev orc n Call.fork, Event.act (Act.perror "fork")], Outcome.returned (-1), n + 1⟩
      else if (orc n Call.fork).ret = 0 then
        Run.prepend [ev orc n Call.fork]
          ((runP (run_program (Command.mk (name :: args) i o e none)) orc (n + 1)).andThen
            (fun _ m => exitsWith 0 m))
      else if (orc (n + 1) (Call.waitpid (orc n Call.fork).ret 0)).ret < 0 then
        ⟨[ev orc n Call.fork, ev orc (n + 1) (Call.waitpid (orc n Call.fork).ret 0),
          Event.act (Act.perror "waitpid")], Outcome.exited EXIT_FAILURE, n + 2⟩
      else
        ⟨[ev orc n Call.fork, ev orc (n + 1) (Call.waitpid (orc n Call.fork).ret 0)],
          Outcome.returned 0, n + 2⟩ := by
  rw [execute_command_cons]
  simp only [if_neg hcd, if_neg hexit, bind_eq, pure_eq, Prog.bind, sys, perror,
    runP_bind, runP_ret, runP_act, runP_exit, runP_ite,
    runP_call _ _ _ _ (rfl : replaces Call.fork _ = false),
    runP_call _ _ _ _ (rfl : replaces (Call.waitpid _ _) _ = false), Nat.add_assoc, Nat.reduceAdd]
  split_ifs <;> simp_all [Run.cons, Run.prepend, exitsWith]

theorem execute_command_with_pipe_eq (argv : List String) (i o e : Option String)
    (next : Command) (exec_next : Prog Int) :
    execute_command_with_pipe (Command.mk argv i o e (some next)) exec_next =
      Prog.call Call.pipe fun pipefds =>
        if pipefds.ret < 0 then Prog.act (Act.perror "pipe") (Prog.ret EXIT_FAILURE)
        else Prog.call Call.fork fun child1 =>
          if child1.ret < 0 then Prog.act (Act.perror "fork") (Prog.exit 1)
          else if child1.ret = 0 then child1_body (Command.mk argv i o e (some next)) pipefds
          else Prog.call Call.fork fun child2 =>
            if child2.ret < 0 then
              Prog.act (Act.perror "fork")
                (Prog.act (Act.printf "child 2 failed to fork \n") (Prog.ret EXIT_FAILURE))
            else if child2.ret = 0 then child2_body pipefds exec_next
            else parent_body pipefds child1 child2 := by
  simp only [execute_command_with_pipe, Command.pipe_to, Option.isNone_some, bind_eq, pure_eq,
    Prog.bind, sys, perror, printf, child1_body, child2_body, parent_body]
  rfl

/-- Every path of child A. -/
theorem runP_child1 (cmd : Command) (pipefds : Reply) (orc : Nat → Call → Reply) (n : Nat) :
    runP (child1_body cmd pipefds) orc n =
      if (orc n (Call.close pipefds.fd0)).ret < 0 then
        ⟨[ev orc n (Call.close pipefds.fd0), Event.act (Act.perror "close")],
          Outcome.exited 1, n + 1⟩
      else if (orc (n + 1) (Call.close STDOUT_FILENO)).ret < 0 then
        ⟨[ev orc n (Call.close pipefds.fd0), ev orc (n + 1) (Call.close STDOUT_FILENO),
          Event.act (Act.perror "close")], Outcome.exited EXIT_FAILURE, n + 2⟩
      else if (orc (n + 2) (Call.dup2 pipefds.fd1 STDOUT_FILENO)).ret < 0 then
        ⟨[ev orc n (Call.close pipefds.fd0), ev orc (n + 1) (Call.close STDOUT_FILENO),
          ev orc (n + 2) (Call.dup2 pipefds.fd1 STDOUT_FILENO), Event.act (Act.perror "dup2")],
          Outcome.exited 1, n + 3⟩
      else
        Run.prepend [ev orc n (Call.close pipefds.fd0), ev orc (n + 1) (Call.close STDOUT_FILENO),
            ev orc (n + 2) (Call.dup2 pipefds.fd1 STDOUT_FILENO)]
          ((runP (run_program cmd) orc (n + 3)).andThen
            (fun r m => exitsWith (if r ≠ 0 then EXIT_FAILURE else 0) m)) := by
  simp only [child1_body, runP_bind, runP_ret, runP_act, runP_exit, runP_ite,
    runP_call _ _ _ _ (rfl : replaces (Call.close _) _ = false),
    runP_call _ _ _ _ (rfl : replaces (Call.dup2 _ _) _ = false), Nat.add_assoc, Nat.reduceAdd]
  split_ifs <;> simp_all [Run.cons, Run.prepend, exitsWith, exited_ite]

/-- Every path of child B. -/
theorem runP_child2 (pipefds : Reply) (exec_next : Prog Int) (orc : Nat → Call → Reply)
    (n : Nat) :
    runP (child2_body pipefds exec_next) orc n =
      if (orc n (Call.close pipefds.fd1)).ret < 0 then
        ⟨[ev orc n (Call.close pipefds.fd1), Event.act (Act.perror "close")],
          Outcome.exited EXIT_FAILURE, n + 1⟩
      else if (orc (n + 1) (Call.close STDIN_FILENO)).ret < 0 then
        ⟨[ev orc n (Call.close pipefds.fd1), ev orc (n + 1) (Call.close STDIN_FILENO),
          Event.act (Act.perror "close")], Outcome.exited EXIT_FAILURE, n + 2⟩
      else if (orc (n + 2) (Call.dup2 pipefds.fd0 STDIN_FILENO)).ret < 0 then
        ⟨[ev orc n (Call.close pipefds.fd1), ev orc (n + 1) (Call.close STDIN_FILENO),
          ev orc (n + 2) (Call.dup2 pipefds.fd0 STDIN_FILENO), Event.act (Act.perror "dup2")],
          Outcome.exited EXIT_FAILURE, n + 3⟩
      else
        Run.prepend [ev orc n (Call.close pipefds.fd1), ev orc (n + 1) (Call.close STDIN_FILENO),
            ev orc (n + 2) (Call.dup2 pipefds.fd0 STDIN_FILENO)]
          ((runP exec_next orc (n + 3)).andThen (fun _ m => exitsWith 0 m)) := by
  simp only [child2_body, runP_bind, runP_ret, runP_act, runP_exit, runP_ite,
    runP_call _ _ _ _ (rfl : replaces (Call.close _) _ = false),
    runP_call _ _ _ _ (rfl : replaces (Call.dup2 _ _) _ = false), Nat.add_assoc, Nat.reduceAdd]
  split_ifs <;> simp_all [Run.cons, Run.prepend, exitsWith]

/-- Every path of the orchestrator after the two `fork`s. -/
theorem runP_parent (pipefds child1 child2 : Reply) (orc : Nat → Call → Reply) (n : Nat) :
    runP (parent_body pipefds child1 child2) orc n =
      if (orc n (Call.close pipefds.fd0)).ret < 0 then
        ⟨[ev orc n (Call.close pipefds.fd0), Event.act (Act.perror "close")],
          Outcome.exited EXIT_FAILURE, n + 1⟩
      else if (orc (n + 1) (Call.close pipefds.fd1)).ret < 0 then
        ⟨[ev orc n (Call.close pipefds.fd0), ev orc (n + 1) (Call.close pipefds.fd1),
          Event.act (Act.perror "close")], Outcome.exited EXIT_FAILURE, n + 2⟩
      else if (orc (n + 2) (Call.waitpid child1.ret 0)).ret < 0 then
        ⟨[ev orc n (Call.close pipefds.fd0), ev orc (n + 1) (Call.close pipefds.fd1),
          ev orc (n + 2) (Call.waitpid child1.ret 0), Event.act (Act.perror "waitpid")],
          Outcome.exited EXIT_FAILURE, n + 3⟩
      else if (orc (n + 3) (Call.waitpid child2.ret 0)).ret < 0 then
        ⟨[ev orc n (Call.close pipefds.fd0), ev orc (n + 1) (Call.close pipefds.fd1),
          ev orc (n + 2) (Call.waitpid child1.ret 0), ev orc (n + 3) (Call.waitpid child2.ret 0),
          Event.act (Act.perror "waitpid")], Outcome.exited EXIT_FAILURE, n + 4⟩
      else
        ⟨[ev orc n (Call.close pipefds.fd0), ev orc (n + 1) (Call.close pipefds.fd1),
          ev orc (n + 2) (Call.waitpid child1.ret 0), ev orc (n + 3) (Call.waitpid child2.ret 0)],
          Outcome.returned EXIT_SUCCESS, n + 4⟩ := by
  simp only [parent_body, runP_ret, runP_act, runP_exit, runP_ite,
    runP_call _ _ _ _ (rfl : replaces (Call.close _) _ = false),
    runP_call _ _ _ _ (rfl : replaces (Call.waitpid _ _) _ = false), Nat.add_assoc, Nat.reduceAdd]
  split_ifs <;> simp_all [Run.cons, exitsWith]

/-- Every path of `execute_command_with_pipe`: the failures of `pipe` and of
the two `fork`s, child A (first `fork` answered `0`), child B (second `fork`
answered `0`), and the orchestrator. -/
theorem runP_with_pipe (argv : List String) (i o e : Option String) (next : Command)
    (exec_next : Prog Int) (orc : Nat → Call → Reply) (n : Nat) :
    runP (execute_command_with_pipe (Command.mk argv i o e (some next)) exec_next) orc n =
      if (orc n Call.pipe).ret < 0 then
        ⟨[ev orc n Call.pipe, Event.act (Act.perror "pipe")], Outcome.returned EXIT_FAILURE, n + 1⟩
      else if (orc (n + 1) Call.fork).ret < 0 then
        ⟨[ev orc n Call.pipe, ev orc (n + 1) Call.fork, Event.act (Act.perror "fork")],
          Outcome.exited 1, n + 2⟩
      else if (orc (n + 1) Call.fork).ret = 0 then
        Run.prepend [ev orc n Call.pipe, ev orc (n + 1) Call.fork]
          (runP (child1_body (Command.mk argv i o e (some next)) (orc n Call.pipe)) orc (n + 2))
      else if (orc (n + 2) Call.fork).ret < 0 then
        ⟨[ev orc n Call.pipe, ev orc (n + 1) Call.fork, ev orc (n + 2) Call.fork,
          Event.act (Act.perror "fork"), Event.act (Act.printf "child 2 failed to fork \n")],
          Outcome.returned EXIT_FAILURE, n + 3⟩
      else if (orc (n + 2) Call.fork).ret = 0 then
        Run.prepend [ev orc n Call.pipe, ev orc (n + 1) Call.fork, ev orc (n + 2) Call.fork]
          (runP (child2_body (orc n Call.pipe) exec_next) orc (n + 3))
      else
        Run.prepend [ev orc n Call.pipe, ev orc (n + 1) Call.fork, ev orc (n + 2) Call.fork]
          (runP (parent_body (orc n Call.pipe) (orc (n + 1) Call.fork) (orc (n + 2) Call.fork))
            orc (n + 3)) := by
  rw [execute_command_with_pipe_eq]
  simp only [runP_ret, runP_act, runP_exit, runP_ite,
    runP_call _ _ _ _ (rfl : replaces Call.pipe _ = false),
    runP_call _ _ _ _ (rfl : replaces Call.fork _ = false), Nat.add_assoc, Nat.reduceAdd]
  split_ifs <;> simp_all [Run.cons, Run.prepend, exitsWith]

theorem callsOf_exec_part (name : String) (argv : List String) (orc : Nat → Call → Reply)
    (n : Nat) : callsOf (runP (exec_part name argv) orc n).trace = [Call.execvp name argv] := by
  rw [runP_exec_part]
  split_ifs <;> simp [callsOf_cons, Event.call?]

/-- Whatever the replies, the calls of a redirection block followed by the
rest of the function start like the calls of `redirected` followed by those
of the rest. -/
theorem callsOf_redirect_prefix (path : Option String) (flags : Nat) (std : Int)
    (rest : Prog Int) (orc : Nat → Call → Reply) (n : Nat) (l : Nat → List Call)
    (h : ∀ m, callsOf (runP rest orc m).trace <+: l m) :
    callsOf (runP (redirect path flags std rest) orc n).trace
      <+: callsOf (redirected path flags std orc n) ++ l (n + redirectedCalls path) := by
  cases path with
  | none => simpa [redirect, redirected, redirectedCalls] using h n
  | some f =>
    rw [runP_redirect_some]
    split_ifs
    · simp [callsOf_cons, Event.call?, redirected]
    · simp [callsOf_cons, Event.call?, redirected]
    · simp [callsOf_cons, Event.call?, redirected]
    · simpa [callsOf_cons, Event.call?, redirected, redirectedCalls] using h (n + 3)

/-- C7: for every command and every outcome of the calls, the calls
run_program makes are an initial part of this sequence: for a present
in_filename, open read-only, dup2 onto stdin, close; for a present
out_filename, open write-only with create and truncate (no append bit), dup2
onto stdout, close; for a present err_filename, open read-write with append,
dup2 onto stderr, close; then execvp of argv[0].  When no open, dup2 or close
fails, its events are the whole sequence.  An absent path contributes no
event, so its stream is left untouched. -/
theorem run_program_redirects_each_stream (name : String) (args : List String)
    (i o e : Option String) (p : Option Command) (orc : Nat → Call → Reply) (n : Nat) :
    callsOf (runP (run_program (Command.mk (name :: args) i o e p)) orc n).trace
      <+: callsOf (redirected i O_RDONLY STDIN_FILENO orc n)
          ++ (callsOf (redirected o (O_WRONLY ||| O_CREAT ||| O_TRUNC) STDOUT_FILENO orc
                (n + redirectedCalls i))
            ++ (callsOf (redirected e (O_RDWR ||| O_APPEND) STDERR_FILENO orc
                  (n + redirectedCalls i + redirectedCalls o))
              ++ [Call.execvp name (name :: args)]))
    ∧ (redirectionFailed (runP (run_program (Command.mk (name :: args) i o e p)) orc n).trace
        = false →
      ∃ tail, (runP (run_program (Command.mk (name :: args) i o e p)) orc n).trace
        = redirected i O_RDONLY STDIN_FILENO orc n
          ++ redirected o (O_WRONLY ||| O_CREAT ||| O_TRUNC) STDOUT_FILENO orc
              (n + redirectedCalls i)
          ++ redirected e (O_RDWR ||| O_APPEND) STDERR_FILENO orc
              (n + redirectedCalls i + redirectedCalls o)
          ++ Event.sys (Call.execvp name (name :: args))
              (orc (n + redirectedCalls i + redirectedCalls o + redirectedCalls e)
                (Call.execvp name (name :: args))) :: tail
        ∧ callsOf tail = [])
    ∧ (O_WRONLY ||| O_CREAT ||| O_TRUNC) &&& O_APPEND = 0
    ∧ (O_WRONLY ||| O_CREAT ||| O_TRUNC) &&& O_CREAT = O_CREAT
    ∧ (O_WRONLY ||| O_CREAT ||| O_TRUNC) &&& O_TRUNC = O_TRUNC
    ∧ (O_WRONLY ||| O_CREAT ||| O_TRUNC) &&& 3 = O_WRONLY
    ∧ (O_RDWR ||| O_APPEND) &&& O_APPEND = O_APPEND
    ∧ (O_RDWR ||| O_APPEND) &&& 3 = O_RDWR
    ∧ O_RDONLY &&& 3 = 0 := by
  refine ⟨?_, ?_, by decide, by decide, by decide, by decide, by decide, by decide, by decide⟩
  · rw [run_program_eq]
    exact callsOf_redirect_prefix _ _ _ _ _ _
      (fun m => callsOf (redirected o (O_WRONLY ||| O_CREAT ||| O_TRUNC) STDOUT_FILENO orc m)
        ++ (callsOf (redirected e (O_RDWR ||| O_APPEND) STDERR_FILENO orc
              (m + redirectedCalls o)) ++ [Call.execvp name (name :: args)]))
      (fun m => callsOf_redirect_prefix _ _ _ _ _ _
        (fun m => callsOf (redirected e (O_RDWR ||| O_APPEND) STDERR_FILENO orc m)
          ++ [Call.execvp name (name :: args)])
        (fun m => callsOf_redirect_prefix _ _ _ _ _ _
          (fun _ => [Call.execvp name (name :: args)])
          (fun m => by rw [callsOf_exec_part])))
  · intro hok
    rw [run_program_eq] at hok ⊢
    obtain ⟨h1, hok1⟩ := runP_redirect_ok _ _ _ _ _ _ hok
    obtain ⟨h2, hok2⟩ := runP_redirect_ok _ _ _ _ _ _ hok1
    obtain ⟨h3, -⟩ := runP_redirect_ok _ _ _ _ _ _ hok2
    rw [h1, h2, h3, runP_exec_part]
    split_ifs
    · exact ⟨[], by simp, rfl⟩
    · exact ⟨[Event.act (Act.fprintf_stderr "incorrect spelling or doesn't exist: \"%s\" \n" name),
        Event.act (Act.perror "")], by simp, by simp [callsOf_cons, Event.call?]⟩

/-- C7, at a command with all three redirections, every call succeeding. -/
theorem run_program_redirects_each_stream_witness :
    redirectionFailed (runP (run_program sortAll) (oracleOf sortAllReplies) 0).trace = false
    ∧ ∃ tail, (runP (run_program sortAll) (oracleOf sortAllReplies) 0).trace
        = redirected (some "in.txt") O_RDONLY STDIN_FILENO (oracleOf sortAllReplies) 0
          ++ redirected (some "out.txt") (O_WRONLY ||| O_CREAT ||| O_TRUNC) STDOUT_FILENO
              (oracleOf sortAllReplies) (0 + redirectedCalls (some "in.txt"))
          ++ redirected (some "err.txt") (O_RDWR ||| O_APPEND) STDERR_FILENO
              (oracleOf sortAllReplies)
              (0 + redirectedCalls (some "in.txt") + redirectedCalls (some "out.txt"))
          ++ Event.sys (Call.execvp "sort" ["sort", "-r"])
              (oracleOf sortAllReplies
                (0 + redirectedCalls (some "in.txt") + redirectedCalls (some "out.txt")
                  + redirectedCalls (some "err.txt"))
                (Call.execvp "sort" ["sort", "-r"])) :: tail
        ∧ callsOf tail = [] :=
  ⟨by decide,
   (run_program_redirects_each_stream "sort" ["-r"] (some "in.txt") (some "out.txt")
      (some "err.txt") none (oracleOf sortAllReplies) 0).2.1 (by decide)⟩

/-! ## Failed redirections -/

theorem exec_or_ub_no_redirection (argv : List String) (orc : Nat → Call → Reply) (n : Nat) :
    redirectionFailed (runP (exec_or_ub argv) orc n).trace = false := by
  cases argv with
  | nil => rfl
  | cons name args =>
    simp only [exec_or_ub, runP_exec_part]
    split_ifs <;> simp [Event.redirectionFailed]

theorem run_program_failed (argv : List String) (i o e : Option String) (p : Option Command)
    (orc : Nat → Call → Reply) (n : Nat)
    (hbad : redirectionFailed (runP (run_program (Command.mk argv i o e p)) orc n).trace = true) :
    callsExec (runP (run_program (Command.mk argv i o e p)) orc n).trace = false
    ∧ ((runP (run_program (Command.mk argv i o e p)) orc n).outcome = Outcome.exited EXIT_FAILURE
      ∨ (runP (run_program (Command.mk argv i o e p)) orc n).outcome
          = Outcome.returned EXIT_FAILURE) := by
  rw [run_program_eq'] at hbad ⊢
  rcases runP_redirect_failed _ _ _ _ _ _ hbad with h | ⟨h1, hc1, hbad1⟩
  · exact h
  rcases runP_redirect_failed _ _ _ _ _ _ hbad1 with h | ⟨h2, hc2, hbad2⟩
  · rw [h1]
    simpa [hc1] using h
  rcases runP_redirect_failed _ _ _ _ _ _ hbad2 with h | ⟨-, -, hbad3⟩
  · rw [h1, h2]
    simpa [hc1, hc2] using h
  · rw [exec_or_ub_no_redirection] at hbad3
    exact absurd hbad3 (by decide)

theorem cd_no_redirection (argv : List String) (orc : Nat → Call → Reply) (n : Nat) :
    redirectionFailed (runP (execute_builtin_cd argv) orc n).trace = false := by
  simp only [execute_builtin_cd, bind_eq, pure_eq, Prog.bind, sys, perror, printf, free]
  split
  · simp [runP, Run.cons, Event.redirectionFailed]
  · simp only [runP_ite, runP_ret, runP_act, runP_exit,
      runP_call _ _ _ _ (rfl : replaces (Call.chdir _) _ = false),
      runP_call _ _ _ _ (rfl : replaces (Call.pathconf_PATH_MAX _) _ = false),
      runP_call _ _ _ _ (rfl : replaces (Call.malloc _) _ = false),
      runP_call _ _ _ _ (rfl : replaces (Call.getcwd _) _ = false)]
    repeat' split
    all_goals simp [runP, Run.cons, ev, exitsWith, Event.redirectionFailed, replaces]

theorem Run.prepend_trace {α : Type} (l : List Event) (r : Run α) :
    (Run.prepend l r).trace = l ++ r.trace := rfl

theorem Run.prepend_outcome {α : Type} (l : List Event) (r : Run α) :
    (Run.prepend l r).outcome = r.outcome := rfl

/-- A process whose `run_program` met a failed redirection, and which exits
whatever `run_program` returns, made no call of `execvp` and exits. -/
theorem run_program_then_exit_failed (argv : List String) (i o e : Option String)
    (p : Option Command) (s : Int → Int) (orc : Nat → Call → Reply) (n : Nat)
    (hbad : redirectionFailed (runP (run_program (Command.mk argv i o e p)) orc n).trace = true) :
    callsExec ((runP (run_program (Command.mk argv i o e p)) orc n).andThen
        (fun a m => exitsWith (s a) m)).trace = false
    ∧ ∃ c, ((runP (run_program (Command.mk argv i o e p)) orc n).andThen
        (fun a m => exitsWith (s a) m)).outcome = Outcome.exited c := by
  obtain ⟨h1, h2⟩ := run_program_failed argv i o e p orc n hbad
  rw [andThen_exitsWith_trace, andThen_exitsWith_outcome]
  refine ⟨h1, ?_⟩
  rcases h2 with h | h <;> rw [h] <;> exact ⟨_, rfl⟩

theorem execute_command_failed_redirection :
    ∀ (cmd : Command) (orc : Nat → Call → Reply) (n : Nat),
      redirectionFailed (runP (execute_command cmd) orc n).trace = true →
      callsExec (runP (execute_command cmd) orc n).trace = false
      ∧ ∃ c, (runP (execute_command cmd) orc n).outcome = Outcome.exited c
  | Command.mk [] i o e p, orc, n => by
    intro h
    rw [execute_command.eq_def] at h
    simp [runP] at h
  | Command.mk (name :: args) i o e none, orc, n => by
    intro h
    by_cases hcd : name = "cd"
    · rw [execute_command_cons, if_pos hcd, cd_no_redirection] at h
      exact absurd h (by decide)
    by_cases hexit : name = "exit"
    · rw [execute_command_cons, if_neg hcd, if_pos hexit] at h
      simp [execute_builtin_exit, runP] at h
    rw [runP_single _ _ _ _ _ _ _ hcd hexit] at h ⊢
    split_ifs at h ⊢
    · simp [ev, Event.redirectionFailed] at h
    · simp only [Run.prepend_trace, Run.prepend_outcome, andThen_exitsWith_trace,
        redirectionFailed_append, callsExec_append] at h ⊢
      simp only [redirectionFailed_cons, redirectionFailed_nil, ev, Event.redirectionFailed,
        Bool.false_or] at h
      have := run_program_then_exit_failed (name :: args) i o e none (fun _ => 0) orc (n + 1) h
      rw [andThen_exitsWith_trace] at this
      simpa [ev, Event.callsExec] using this
    · simp [ev, Event.redirectionFailed] at h
    · simp [ev, Event.redirectionFailed] at h
  | Command.mk (name :: args) i o e (some next), orc, n => by
    intro h
    by_cases hcd : name = "cd"
    · rw [execute_command_cons, if_pos hcd, cd_no_redirection] at h
      exact absurd h (by decide)
    by_cases hexit : name = "exit"
    · rw [execute_command_cons, if_neg hcd, if_pos hexit] at h
      simp [execute_builtin_exit, runP] at h
    have ih := execute_command_failed_redirection next
    rw [execute_command_cons, if_neg hcd, if_neg hexit] at h ⊢
    simp only [] at h ⊢
    rw [runP_with_pipe] at h ⊢
    split_ifs at h ⊢
    · simp [ev, Event.redirectionFailed] at h
    · simp [ev, Event.redirectionFailed] at h
    · rw [runP_child1] at h ⊢
      split_ifs at h ⊢
      · simp [Run.prepend_trace, Run.prepend_outcome, ev, Event.callsExec]
      · simp [Run.prepend_trace, Run.prepend_outcome, ev, Event.callsExec]
      · simp [Run.prepend_trace, Run.prepend_outcome, ev, Event.callsExec]
      · simp only [Run.prepend_trace, Run.prepend_outcome, andThen_exitsWith_trace,
          redirectionFailed_append, callsExec_append] at h ⊢
        have h' : redirectionFailed
            (runP (run_program (Command.mk (name :: args) i o e (some next))) orc (n + 2 + 3)).trace
              = true := by
          simp only [redirectionFailed_cons, redirectionFailed_nil, ev, Event.redirectionFailed,
            Bool.or_eq_true, decide_eq_true_eq, Bool.false_or, Bool.or_false] at h
          rcases h with (h | h | h) | h
          · omega
          · omega
          · omega
          · exact h
        have := run_program_then_exit_failed (name :: args) i o e (some next)
          (fun r => if r ≠ 0 then EXIT_FAILURE else 0) orc (n + 2 + 3) h'
        rw [andThen_exitsWith_trace] at this
        simpa [ev, Event.callsExec] using this
    · simp [ev, Event.redirectionFailed] at h
    · rw [runP_child2] at h ⊢
      split_ifs at h ⊢
      · simp [Run.prepend_trace, Run.prepend_outcome, ev, Event.callsExec]
      · simp [Run.prepend_trace, Run.prepend_outcome, ev, Event.callsExec]
      · simp [Run.prepend_trace, Run.prepend_outcome, ev, Event.callsExec]
      · simp only [Run.prepend_trace, Run.prepend_outcome, andThen_exitsWith_trace,
          redirectionFailed_append, callsExec_append] at h ⊢
        have h' : redirectionFailed (runP (execute_command next) orc (n + 3 + 3)).trace
              = true := by
          simp only [redirectionFailed_cons, redirectionFailed_nil, ev, Event.redirectionFailed,
            Bool.or_eq_true, decide_eq_true_eq, Bool.false_or, Bool.or_false] at h
          rcases h with (h | h | h) | h
          · omega
          · omega
          · omega
          · exact h
        obtain ⟨hc, c, hout⟩ := ih orc (n + 3 + 3) h'
        rw [andThen_exitsWith_outcome (s := fun _ => 0), hout]
        simpa [ev, Event.callsExec] using hc
    · rw [runP_parent] at h ⊢
      split_ifs at h ⊢
      · simp [Run.prepend_trace, Run.prepend_outcome, ev, Event.callsExec]
      · simp [Run.prepend_trace, Run.prepend_outcome, ev, Event.callsExec]
      · exfalso
        simp [Run.prepend_trace, ev, Event.redirectionFailed] at h
        omega
      · exfalso
        simp [Run.prepend_trace, ev, Event.redirectionFailed] at h
        omega
      · exfalso
        simp [Run.prepend_trace, ev, Event.redirectionFailed] at h
        omega

/-- C5: whenever an open, dup2 or close fails inside run_program, run_program
makes no call of execvp and either exits or returns EXIT_FAILURE; and on every
path of execute_command, for any command (single or chained), a process that
met a failed open, dup2 or close made no call of execvp and ended by exiting. -/
theorem failed_redirection_never_reaches_execvp (cmd : Command) (orc : Nat → Call → Reply)
    (n : Nat) :
    (redirectionFailed (runP (run_program cmd) orc n).trace = true →
      callsExec (runP (run_program cmd) orc n).trace = false
      ∧ ((runP (run_program cmd) orc n).outcome = Outcome.exited EXIT_FAILURE
        ∨ (runP (run_program cmd) orc n).outcome = Outcome.returned EXIT_FAILURE))
    ∧ (redirectionFailed (runP (execute_command cmd) orc n).trace = true →
      callsExec (runP (execute_command cmd) orc n).trace = false
      ∧ ∃ c, (runP (execute_command cmd) orc n).outcome = Outcome.exited c) := by
  refine ⟨?_, execute_command_failed_redirection cmd orc n⟩
  cases cmd with
  | mk argv i o e p => exact run_program_failed argv i o e p orc n

/-- C5, at a command whose input file cannot be opened: in run_program, and in
the single-stage child of execute_command. -/
theorem failed_redirection_never_reaches_execvp_witness :
    (redirectionFailed (runP (run_program catMissing) (oracleOf [Reply.val (-1)]) 0).trace = true
      ∧ callsExec (runP (run_program catMissing) (oracleOf [Reply.val (-1)]) 0).trace = false
      ∧ ((runP (run_program catMissing) (oracleOf [Reply.val (-1)]) 0).outcome
            = Outcome.exited EXIT_FAILURE
        ∨ (runP (run_program catMissing) (oracleOf [Reply.val (-1)]) 0).outcome
            = Outcome.returned EXIT_FAILURE))
    ∧ (redirectionFailed
          (runP (execute_command catMissing) (oracleOf [Reply.val 0, Reply.val (-1)]) 0).trace
        = true
      ∧ callsExec
          (runP (execute_command catMissing) (oracleOf [Reply.val 0, Reply.val (-1)]) 0).trace
        = false
      ∧ ∃ c, (runP (execute_command catMissing) (oracleOf [Reply.val 0, Reply.val (-1)]) 0).outcome
        = Outcome.exited c) :=
  ⟨⟨by decide,
    (failed_redirection_never_reaches_execvp catMissing (oracleOf [Reply.val (-1)]) 0).1
      (by decide)⟩,
   ⟨by decide,
    (failed_redirection_never_reaches_execvp catMissing
      (oracleOf [Reply.val 0, Reply.val (-1)]) 0).2 (by decide)⟩⟩

/-- C6 (as the code behaves): in the single-stage child (fork answered 0) of a
command whose program cannot be executed (execvp answers -1), run_program
returns -1, the child ignores that value and exits with status 0. -/
theorem single_stage_child_exits_zero_when_exec_fails :
    runP (execute_command nonexistentCmd) (oracleOf [Reply.val 0, Reply.val (-1)]) 0
      = ⟨[Event.sys Call.fork (Reply.val 0),
          Event.sys (Call.execvp "nonexistent" ["nonexistent"]) (Reply.val (-1)),
          Event.act (Act.fprintf_stderr "incorrect spelling or doesn't exist: \"%s\" \n"
            "nonexistent"),
          Event.act (Act.perror "")],
        Outcome.exited 0, 2⟩ := by
  decide

/-! ## The process tree -/

theorem consRoot_fst {α : Type} (e : Event) (t : Run α × List ProcLog) :
    (consRoot e t).1 = t.1.cons e := rfl

theorem consRoot_snd {α : Type} (e : Event) (t : Run α × List ProcLog) :
    (consRoot e t).2 = t.2 := rfl

theorem spawn_fst {α : Type} (id : List Nat) (n : Nat) (child parent : Run α × List ProcLog) :
    (spawn id n child parent).1 = parent.1 := rfl

/-- The process followed by `runTree` is the process `runP` follows when it is
given the replies of that process, as the parent of its `fork`s. -/
theorem runTree_root {α : Type} (p : Prog α) (w : List Nat → Nat → Call → Reply) :
    ∀ (id : List Nat) (n : Nat), (runTree p w id n).1 = runP p (parentView (w id)) n := by
  induction p with
  | ret a => intro id n; rfl
  | call c k ih =>
    intro id n
    by_cases hc : c = Call.fork
    · subst hc
      by_cases hpos : 0 < (w id n Call.fork).ret
      · simp [runTree, runP, replaces, parentView, hpos, spawn_fst, consRoot_fst, ih]
      · simp [runTree, runP, replaces, parentView, hpos, consRoot_fst, ih]
    · have hv : parentView (w id) n c = w id n c := by simp [parentView, hc]
      simp only [runTree, runP, hv, if_neg hc]
      split
      · rfl
      · rw [consRoot_fst, ih]
  | act a k ih => intro id n; simp [runTree, runP, consRoot_fst, ih]
  | exit s => intro id n; rfl
  | abort => intro id n; rfl
  | ub => intro id n; rfl

/-- C2 (as stated, refuted): when the program cannot be executed (execvp
answers -1 in the child), fork and waitpid succeeding, execute_command returns
0; and when the child exits with status EXIT_FAILURE because its input file
cannot be opened, execute_command returns 0 as well, not the status of the
child it waited for. -/
theorem execute_command_returns_zero_on_child_failure :
    runTree (execute_command nonexistentCmd)
        (worldOf [([], [Reply.val 100, Reply.val 100]), ([0], [Reply.val (-1)])]) [] 0
      = (⟨[Event.sys Call.fork (Reply.val 100), Event.sys (Call.waitpid 100 0) (Reply.val 100)],
          Outcome.returned 0, 2⟩,
         [⟨[0], [Event.sys Call.fork (Reply.val 0),
            Event.sys (Call.execvp "nonexistent" ["nonexistent"]) (Reply.val (-1)),
            Event.act (Act.fprintf_stderr "incorrect spelling or doesn't exist: \"%s\" \n"
              "nonexistent"),
            Event.act (Act.perror "")], Ending.exited 0⟩])
    ∧ runTree (execute_command catMissing)
        (worldOf [([], [Reply.val 100, Reply.val 100]), ([0], [Reply.val (-1)])]) [] 0
      = (⟨[Event.sys Call.fork (Reply.val 100), Event.sys (Call.waitpid 100 0) (Reply.val 100)],
          Outcome.returned 0, 2⟩,
         [⟨[0], [Event.sys Call.fork (Reply.val 0),
            Event.sys (Call.open_ "missing.txt" O_RDONLY 0o644) (Reply.val (-1)),
            Event.act (Act.perror "open")], Ending.exited EXIT_FAILURE⟩]) := by
  decide

/-- C2 (amended): for a command that is not a builtin and has no next link,
when fork and waitpid succeed, execute_command returns 0, in every world, that
is whatever the child does and whatever its exit status. -/
theorem execute_command_returns_zero_after_wait (name : String) (args : List String)
    (i o e : Option String) (w : List Nat → Nat → Call → Reply) (id : List Nat) (n : Nat)
    (hcd : name ≠ "cd") (hexit : name ≠ "exit")
    (hfork : 0 < (w id n Call.fork).ret)
    (hwait : 0 ≤ (w id (n + 1) (Call.waitpid (w id n Call.fork).ret 0)).ret) :
    (runTree (execute_command (Command.mk (name :: args) i o e none)) w id n).1.outcome
      = Outcome.returned 0 := by
  have hf : parentView (w id) n Call.fork = w id n Call.fork := by simp [parentView, hfork]
  have hw : parentView (w id) (n + 1) (Call.waitpid (w id n Call.fork).ret 0)
      = w id (n + 1) (Call.waitpid (w id n Call.fork).ret 0) := by simp [parentView]
  rw [runTree_root, runP_single _ _ _ _ _ _ _ hcd hexit, hf, hw]
  rw [if_neg (by omega), if_neg (by omega), if_neg (by omega)]

/-- C2 (amended), at a command whose child exits with EXIT_FAILURE. -/
theorem execute_command_returns_zero_after_wait_witness :
    (runTree (execute_command (Command.mk ["cat"] (some "missing.txt") none none none))
        (worldOf [([], [Reply.val 100, Reply.val 100]), ([0], [Reply.val (-1)])]) [] 0).1.outcome
      = Outcome.returned 0 :=
  execute_command_returns_zero_after_wait "cat" [] (some "missing.txt") none none
    (worldOf [([], [Reply.val 100, Reply.val 100]), ([0], [Reply.val (-1)])]) [] 0
    (by decide) (by decide) (by decide) (by decide)

/-! ## Waiting for the children of a pipe -/

theorem andThen_exitsWith_ne_returned (r : Run Int) (s : Int → Int) (v : Int) :
    (r.andThen (fun a m => exitsWith (s a) m)).outcome ≠ Outcome.returned v := by
  rw [andThen_exitsWith_outcome]
  cases r.outcome <;> simp

/-- The three ways `execute_command_with_pipe` returns: `pipe` failed; the
second `fork` failed; or every call of the orchestrator succeeded. -/
theorem runP_pipe_returned (argv : List String) (i o e : Option String) (next : Command)
    (exec_next : Prog Int) (orc : Nat → Call → Reply) (n : Nat) (v : Int)
    (hret : (runP (execute_command_with_pipe (Command.mk argv i o e (some next)) exec_next)
      orc n).outcome = Outcome.returned v) :
    ((orc n Call.pipe).ret < 0
      ∧ runP (execute_command_with_pipe (Command.mk argv i o e (some next)) exec_next) orc n
        = ⟨[ev orc n Call.pipe, Event.act (Act.perror "pipe")],
            Outcome.returned EXIT_FAILURE, n + 1⟩)
    ∨ (0 ≤ (orc n Call.pipe).ret ∧ 0 < (orc (n + 1) Call.fork).ret
      ∧ (orc (n + 2) Call.fork).ret < 0
      ∧ runP (execute_command_with_pipe (Command.mk argv i o e (some next)) exec_next) orc n
        = ⟨[ev orc n Call.pipe, ev orc (n + 1) Call.fork, ev orc (n + 2) Call.fork,
            Event.act (Act.perror "fork"), Event.act (Act.printf "child 2 failed to fork \n")],
            Outcome.returned EXIT_FAILURE, n + 3⟩)
    ∨ (0 ≤ (orc n Call.pipe).ret ∧ 0 < (orc (n + 1) Call.fork).ret
      ∧ 0 < (orc (n + 2) Call.fork).ret
      ∧ 0 ≤ (orc (n + 3) (Call.close (orc n Call.pipe).fd0)).ret
      ∧ 0 ≤ (orc (n + 4) (Call.close (orc n Call.pipe).fd1)).ret
      ∧ 0 ≤ (orc (n + 5) (Call.waitpid (orc (n + 1) Call.fork).ret 0)).ret
      ∧ 0 ≤ (orc (n + 6) (Call.waitpid (orc (n + 2) Call.fork).ret 0)).ret
      ∧ runP (execute_command_with_pipe (Command.mk argv i o e (some next)) exec_next) orc n
        = ⟨[ev orc n Call.pipe, ev orc (n + 1) Call.fork, ev orc (n + 2) Call.fork,
            ev orc (n + 3) (Call.close (orc n Call.pipe).fd0),
            ev orc (n + 4) (Call.close (orc n Call.pipe).fd1),
            ev orc (n + 5) (Call.waitpid (orc (n + 1) Call.fork).ret 0),
            ev orc (n + 6) (Call.waitpid (orc (n + 2) Call.fork).ret 0)],
            Outcome.returned EXIT_SUCCESS, n + 7⟩) := by
  rw [runP_with_pipe] at hret ⊢
  by_cases hp : (orc n Call.pipe).ret < 0
  · left
    exact ⟨hp, by rw [if_pos hp]⟩
  rw [if_neg hp] at hret ⊢
  by_cases h1 : (orc (n + 1) Call.fork).ret < 0
  · rw [if_pos h1] at hret
    simp at hret
  rw [if_neg h1] at hret ⊢
  by_cases h10 : (orc (n + 1) Call.fork).ret = 0
  · rw [if_pos h10, Run.prepend_outcome, runP_child1] at hret
    split_ifs at hret
    rw [Run.prepend_outcome] at hret
    exact absurd hret (andThen_exitsWith_ne_returned _ _ _)
  rw [if_neg h10] at hret ⊢
  by_cases h2 : (orc (n + 2) Call.fork).ret < 0
  · right; left
    exact ⟨by omega, by omega, h2, by rw [if_pos h2]⟩
  rw [if_neg h2] at hret ⊢
  by_cases h20 : (orc (n + 2) Call.fork).ret = 0
  · rw [if_pos h20, Run.prepend_outcome, runP_child2] at hret
    split_ifs at hret
    rw [Run.prepend_outcome] at hret
    exact absurd hret (andThen_exitsWith_ne_returned _ (fun _ => 0) _)
  rw [if_neg h20] at hret ⊢
  right; right
  rw [Run.prepend_outcome, runP_parent] at hret
  rw [runP_parent]
  simp only [Nat.add_assoc, Nat.reduceAdd] at hret ⊢
  split_ifs at hret ⊢
  exact ⟨by omega, by omega, by omega, by omega, by omega, by omega, by omega, rfl⟩

/-- C8 (as stated, refuted): for the chain `ls | wc`, when pipe and the first
fork succeed (child A has pid 100) and the second fork fails,
execute_command returns EXIT_FAILURE although child A was forked and never
waited for. -/
theorem second_fork_failure_returns_without_waiting :
    (runP (execute_command lsWc) (oracleOf [⟨0, 3, 4, none⟩, Reply.val 100, Reply.val (-1)]) 0).outcome
      = Outcome.returned EXIT_FAILURE
    ∧ forkedPids (runP (execute_command lsWc)
        (oracleOf [⟨0, 3, 4, none⟩, Reply.val 100, Reply.val (-1)]) 0).trace = [100]
    ∧ waitedPids (runP (execute_command lsWc)
        (oracleOf [⟨0, 3, 4, none⟩, Reply.val 100, Reply.val (-1)]) 0).trace = [] := by
  decide

/-- C8 (amended): for a chained command whose head is not a builtin and every
outcome of the system calls: (1) whenever execute_command returns and its
second fork did not fail, the children it forked are exactly the children it
waited for successfully, in the same order; (2) when pipe and the first fork
succeed and the second fork fails, it returns EXIT_FAILURE with child A forked
and not waited for; (3) when every call succeeds, it closes both pipe
descriptors, then waits for child A, then for child B, and returns
EXIT_SUCCESS. -/
theorem pipeline_return_waits_for_children (name : String) (args : List String)
    (i o e : Option String) (next : Command) (orc : Nat → Call → Reply) (n : Nat)
    (hcd : name ≠ "cd") (hexit : name ≠ "exit") :
    (∀ v, (runP (execute_command (Command.mk (name :: args) i o e (some next))) orc n).outcome
          = Outcome.returned v →
        ¬ (0 ≤ (orc n Call.pipe).ret ∧ 0 < (orc (n + 1) Call.fork).ret
            ∧ (orc (n + 2) Call.fork).ret < 0) →
        waitedPids
            (runP (execute_command (Command.mk (name :: args) i o e (some next))) orc n).trace
          = forkedPids
            (runP (execute_command (Command.mk (name :: args) i o e (some next))) orc n).trace)
    ∧ (0 ≤ (orc n Call.pipe).ret → 0 < (orc (n + 1) Call.fork).ret →
        (orc (n + 2) Call.fork).ret < 0 →
        (runP (execute_command (Command.mk (name :: args) i o e (some next))) orc n).outcome
          = Outcome.returned EXIT_FAILURE
        ∧ forkedPids
            (runP (execute_command (Command.mk (name :: args) i o e (some next))) orc n).trace
          = [(orc (n + 1) Call.fork).ret]
        ∧ waitedPids
            (runP (execute_command (Command.mk (name :: args) i o e (some next))) orc n).trace
          = [])
    ∧ (0 ≤ (orc n Call.pipe).ret → 0 < (orc (n + 1) Call.fork).ret →
        0 < (orc (n + 2) Call.fork).ret →
        0 ≤ (orc (n + 3) (Call.close (orc n Call.pipe).fd0)).ret →
        0 ≤ (orc (n + 4) (Call.close (orc n Call.pipe).fd1)).ret →
        0 ≤ (orc (n + 5) (Call.waitpid (orc (n + 1) Call.fork).ret 0)).ret →
        0 ≤ (orc (n + 6) (Call.waitpid (orc (n + 2) Call.fork).ret 0)).ret →
        runP (execute_command (Command.mk (name :: args) i o e (some next))) orc n
          = ⟨[ev orc n Call.pipe, ev orc (n + 1) Call.fork, ev orc (n + 2) Call.fork,
              ev orc (n + 3) (Call.close (orc n Call.pipe).fd0),
              ev orc (n + 4) (Call.close (orc n Call.pipe).fd1),
              ev orc (n + 5) (Call.waitpid (orc (n + 1) Call.fork).ret 0),
              ev orc (n + 6) (Call.waitpid (orc (n + 2) Call.fork).ret 0)],
            Outcome.returned EXIT_SUCCESS, n + 7⟩) := by
  have hchar := runP_pipe_returned (name :: args) i o e next (execute_command next) orc n
  rw [execute_command_cons, if_neg hcd, if_neg hexit]
  simp only []
  refine ⟨?_, ?_, ?_⟩
  · intro v hret hnot
    rcases hchar v hret with ⟨-, h⟩ | ⟨hp, h1, h2, -⟩ | ⟨hp, h1, h2, h3, h4, h5, h6, h⟩
    · rw [h]
      simp [ev, waitedPids_cons, forkedPids_cons, Event.waited?, Event.forked?]
    · exact absurd ⟨hp, h1, h2⟩ hnot
    · rw [h]
      simp [ev, waitedPids_cons, forkedPids_cons, Event.waited?, Event.forked?, h1, h2, h5, h6]
  · intro hp h1 h2
    rw [runP_with_pipe, if_neg (by omega), if_neg (by omega), if_neg (by omega), if_pos h2]
    have h2' : ¬ 0 < (orc (n + 2) Call.fork).ret := by omega
    simp [ev, waitedPids_cons, forkedPids_cons, Event.waited?, Event.forked?, h1, h2']
  · intro hp h1 h2 h3 h4 h5 h6
    rw [runP_with_pipe, if_neg (by omega), if_neg (by omega), if_neg (by omega),
      if_neg (by omega), if_neg (by omega), runP_parent]
    simp only [Nat.add_assoc, Nat.reduceAdd]
    rw [if_neg (by omega), if_neg (by omega), if_neg (by omega), if_neg (by omega)]
    rfl

/-- C8 (amended), on the chain `ls | wc`: all calls succeeding, and the
second fork failing. -/
theorem pipeline_return_waits_for_children_witness :
    (waitedPids (runP (execute_command lsWc) (oracleOf orchestratorReplies) 0).trace
      = forkedPids (runP (execute_command lsWc) (oracleOf orchestratorReplies) 0).trace)
    ∧ ((runP (execute_command lsWc)
          (oracleOf [⟨0, 3, 4, none⟩, Reply.val 100, Reply.val (-1)]) 0).outcome
        = Outcome.returned EXIT_FAILURE
      ∧ forkedPids (runP (execute_command lsWc)
          (oracleOf [⟨0, 3, 4, none⟩, Reply.val 100, Reply.val (-1)]) 0).trace
        = [(oracleOf [⟨0, 3, 4, none⟩, Reply.val 100, Reply.val (-1)] (0 + 1) Call.fork).ret]
      ∧ waitedPids (runP (execute_command lsWc)
          (oracleOf [⟨0, 3, 4, none⟩, Reply.val 100, Reply.val (-1)]) 0).trace = [])
    ∧ (runP (execute_command lsWc) (oracleOf orchestratorReplies) 0).outcome
        = Outcome.returned EXIT_SUCCESS :=
  ⟨(pipeline_return_waits_for_children "ls" [] none none none
      (Command.mk ["wc"] none none none none) (oracleOf orchestratorReplies) 0
      (by decide) (by decide)).1 0 (by decide) (by decide),
   (pipeline_return_waits_for_children "ls" [] none none none
      (Command.mk ["wc"] none none none none)
      (oracleOf [⟨0, 3, 4, none⟩, Reply.val 100, Reply.val (-1)]) 0
      (by decide) (by decide)).2.1 (by decide) (by decide) (by decide),
   congrArg Run.outcome ((pipeline_return_waits_for_children "ls" [] none none none
      (Command.mk ["wc"] none none none none) (oracleOf orchestratorReplies) 0
      (by decide) (by decide)).2.2 (by decide) (by decide) (by decide) (by decide) (by decide)
      (by decide) (by decide))⟩

/-! ## The descriptors of the children of a pipe -/

/-- C9 (as stated, refuted): in child A of `ls | wc`, with pipe descriptors 3
and 4 and every call succeeding, the events before run_program are close(3),
close(1), dup2(4, 1); at the call of run_program descriptor 4, the original
write end, is still open and refers to the pipe, next to standard output. -/
theorem child_a_keeps_original_write_end :
    (runP (execute_command lsWc) (oracleOf childAReplies) 0).trace
      = childASetup ++ [Event.sys (Call.execvp "ls" ["ls"]) (Reply.val 0)]
    ∧ (runP (run_program lsWc) (oracleOf childAReplies) 5).trace
      = [Event.sys (Call.execvp "ls" ["ls"]) (Reply.val 0)]
    ∧ fdsAfter stdFds childASetup 4 = some Target.pipeWrite
    ∧ fdsAfter stdFds childASetup 1 = some Target.pipeWrite
    ∧ fdsAfter stdFds childASetup 3 = none := by
  decide

/-- C9 (amended): with a successful pipe whose descriptors differ from each
other, in child A (write end other than standard output, read end other than
standard output), all its calls succeeding, at the call of run_program the
read end is closed, standard output refers to the write end, and the original
write-end descriptor is still open on the pipe (it is not released); in child
B (descriptors other than standard input), before it executes the rest of the
chain, the write end is closed, standard input refers to the read end, and the
original read-end descriptor is still open on the pipe. -/
theorem pipe_children_descriptors (name : String) (args : List String)
    (i o e : Option String) (next : Command) (orc : Nat → Call → Reply) (n : Nat)
    (t0 : Int → Option Target)
    (hcd : name ≠ "cd") (hexit : name ≠ "exit") (hp : 0 ≤ (orc n Call.pipe).ret)
    (hrw : (orc n Call.pipe).fd0 ≠ (orc n Call.pipe).fd1) :
    ((orc (n + 1) Call.fork).ret = 0 →
      0 ≤ (orc (n + 2) (Call.close (orc n Call.pipe).fd0)).ret →
      0 ≤ (orc (n + 3) (Call.close STDOUT_FILENO)).ret →
      0 ≤ (orc (n + 4) (Call.dup2 (orc n Call.pipe).fd1 STDOUT_FILENO)).ret →
      (orc n Call.pipe).fd0 ≠ STDOUT_FILENO → (orc n Call.pipe).fd1 ≠ STDOUT_FILENO →
      (runP (execute_command (Command.mk (name :: args) i o e (some next))) orc n).trace
        = [ev orc n Call.pipe, ev orc (n + 1) Call.fork,
            ev orc (n + 2) (Call.close (orc n Call.pipe).fd0),
            ev orc (n + 3) (Call.close STDOUT_FILENO),
            ev orc (n + 4) (Call.dup2 (orc n Call.pipe).fd1 STDOUT_FILENO)]
          ++ (runP (run_program (Command.mk (name :: args) i o e (some next))) orc (n + 5)).trace
      ∧ fdsAfter t0 [ev orc n Call.pipe, ev orc (n + 1) Call.fork,
            ev orc (n + 2) (Call.close (orc n Call.pipe).fd0),
            ev orc (n + 3) (Call.close STDOUT_FILENO),
            ev orc (n + 4) (Call.dup2 (orc n Call.pipe).fd1 STDOUT_FILENO)]
          (orc n Call.pipe).fd0 = none
      ∧ fdsAfter t0 [ev orc n Call.pipe, ev orc (n + 1) Call.fork,
            ev orc (n + 2) (Call.close (orc n Call.pipe).fd0),
            ev orc (n + 3) (Call.close STDOUT_FILENO),
            ev orc (n + 4) (Call.dup2 (orc n Call.pipe).fd1 STDOUT_FILENO)]
          STDOUT_FILENO = some Target.pipeWrite
      ∧ fdsAfter t0 [ev orc n Call.pipe, ev orc (n + 1) Call.fork,
            ev orc (n + 2) (Call.close (orc n Call.pipe).fd0),
            ev orc (n + 3) (Call.close STDOUT_FILENO),
            ev orc (n + 4) (Call.dup2 (orc n Call.pipe).fd1 STDOUT_FILENO)]
          (orc n Call.pipe).fd1 = some Target.pipeWrite)
    ∧ (0 < (orc (n + 1) Call.fork).ret → (orc (n + 2) Call.fork).ret = 0 →
      0 ≤ (orc (n + 3) (Call.close (orc n Call.pipe).fd1)).ret →
      0 ≤ (orc (n + 4) (Call.close STDIN_FILENO)).ret →
      0 ≤ (orc (n + 5) (Call.dup2 (orc n Call.pipe).fd0 STDIN_FILENO)).ret →
      (orc n Call.pipe).fd0 ≠ STDIN_FILENO → (orc n Call.pipe).fd1 ≠ STDIN_FILENO →
      (runP (execute_command (Command.mk (name :: args) i o e (some next))) orc n).trace
        = [ev orc n Call.pipe, ev orc (n + 1) Call.fork, ev orc (n + 2) Call.fork,
            ev orc (n + 3) (Call.close (orc n Call.pipe).fd1),
            ev orc (n + 4) (Call.close STDIN_FILENO),
            ev orc (n + 5) (Call.dup2 (orc n Call.pipe).fd0 STDIN_FILENO)]
          ++ (runP (execute_command next) orc (n + 6)).trace
      ∧ fdsAfter t0 [ev orc n Call.pipe, ev orc (n + 1) Call.fork, ev orc (n + 2) Call.fork,
            ev orc (n + 3) (Call.close (orc n Call.pipe).fd1),
            ev orc (n + 4) (Call.close STDIN_FILENO),
            ev orc (n + 5) (Call.dup2 (orc n Call.pipe).fd0 STDIN_FILENO)]
          (orc n Call.pipe).fd1 = none
      ∧ fdsAfter t0 [ev orc n Call.pipe, ev orc (n + 1) Call.fork, ev orc (n + 2) Call.fork,
            ev orc (n + 3) (Call.close (orc n Call.pipe).fd1),
            ev orc (n + 4) (Call.close STDIN_FILENO),
            ev orc (n + 5) (Call.dup2 (orc n Call.pipe).fd0 STDIN_FILENO)]
          STDIN_FILENO = some Target.pipeRead
      ∧ fdsAfter t0 [ev orc n Call.pipe, ev orc (n + 1) Call.fork, ev orc (n + 2) Call.fork,
            ev orc (n + 3) (Call.close (orc n Call.pipe).fd1),
            ev orc (n + 4) (Call.close STDIN_FILENO),
            ev orc (n + 5) (Call.dup2 (orc n Call.pipe).fd0 STDIN_FILENO)]
          (orc n Call.pipe).fd0 = some Target.pipeRead) := by
  rw [execute_command_cons, if_neg hcd, if_neg hexit]
  simp only []
  rw [runP_with_pipe]
  have hp' : ¬ (orc n Call.pipe).ret < 0 := by omega
  constructor
  · intro h1 h2 h3 h4 hr1 hw1
    rw [if_neg hp', if_neg (by omega), if_pos h1, runP_child1]
    simp only [Nat.add_assoc, Nat.reduceAdd]
    rw [if_neg (by omega), if_neg (by omega), if_neg (by omega)]
    refine ⟨by simp [Run.prepend_trace, andThen_exitsWith_trace], ?_, ?_, ?_⟩ <;>
      simp [fdsAfter, fdStep, ev, hp', not_lt.mpr h2, not_lt.mpr h3, not_lt.mpr h4, hrw,
        Ne.symm hrw, hr1, hw1, Ne.symm hw1]
  · intro h1 h2 h3 h4 h5 hr0 hw0
    rw [if_neg hp', if_neg (by omega), if_neg (by omega), if_neg (by omega), if_pos h2,
      runP_child2]
    simp only [Nat.add_assoc, Nat.reduceAdd]
    rw [if_neg (by omega), if_neg (by omega), if_neg (by omega)]
    refine ⟨by simp [Run.prepend_trace, andThen_exitsWith_trace (s := fun _ => 0)], ?_, ?_, ?_⟩ <;>
      simp [fdsAfter, fdStep, ev, hp', not_lt.mpr h3, not_lt.mpr h4, not_lt.mpr h5, hrw,
        Ne.symm hrw, hr0, hw0, Ne.symm hr0]

/-- C9 (amended), in the children of `ls | wc` with pipe descriptors 3 and 4,
starting from a table whose three standard streams are open. -/
theorem pipe_children_descriptors_witness :
    ((runP (execute_command lsWc) (oracleOf childAReplies) 0).trace
        = childASetup ++ (runP (run_program lsWc) (oracleOf childAReplies) (0 + 5)).trace
      ∧ fdsAfter stdFds childASetup 3 = none
      ∧ fdsAfter stdFds childASetup STDOUT_FILENO = some Target.pipeWrite
      ∧ fdsAfter stdFds childASetup 4 = some Target.pipeWrite)
    ∧ ((runP (execute_command lsWc) (oracleOf childBReplies) 0).trace
        = childBSetup
          ++ (runP (execute_command (Command.mk ["wc"] none none none none))
              (oracleOf childBReplies) (0 + 6)).trace
      ∧ fdsAfter stdFds childBSetup 4 = none
      ∧ fdsAfter stdFds childBSetup STDIN_FILENO = some Target.pipeRead
      ∧ fdsAfter stdFds childBSetup 3 = some Target.pipeRead) :=
  ⟨(pipe_children_descriptors "ls" [] none none none (Command.mk ["wc"] none none none none)
      (oracleOf childAReplies) 0 stdFds (by decide) (by decide) (by decide) (by decide)).1
      (by decide) (by decide) (by decide) (by decide) (by decide) (by decide),
   (pipe_children_descriptors "ls" [] none none none (Command.mk ["wc"] none none none none)
      (oracleOf childBReplies) 0 stdFds (by decide) (by decide) (by decide) (by decide)).2
      (by decide) (by decide) (by decide) (by decide) (by decide) (by decide) (by decide)⟩

/-! ## Programs without `fork` in the process tree -/

theorem runTree_noFork {α : Type} (p : Prog α) (w : List Nat → Nat → Call → Reply) :
    noFork p → ∀ (id : List Nat) (n : Nat), runTree p w id n = (runP p (w id) n, []) := by
  induction p with
  | ret a => intro _ id n; rfl
  | call c k ih =>
    intro h id n
    obtain ⟨hc, hk⟩ := h
    simp only [runTree, runP, if_neg hc]
    split
    · rfl
    · rw [ih _ (hk _)]
      rfl
  | act a k ih =>
    intro h id n
    simp only [runTree, runP]
    rw [ih h]
    rfl
  | exit s => intro _ id n; rfl
  | abort => intro _ id n; rfl
  | ub => intro _ id n; rfl

theorem noFork_bind {α β : Type} (p : Prog α) (f : α → Prog β) :
    noFork p → (∀ a, noFork (f a)) → noFork (p.bind f) := by
  induction p with
  | ret a => intro _ hf; exact hf a
  | call c k ih => intro h hf; exact ⟨h.1, fun r => ih r (h.2 r) hf⟩
  | act a k ih => intro h hf; exact ih h hf
  | exit s => intro _ _; trivial
  | abort => intro _ _; trivial
  | ub => intro _ _; trivial

theorem noFork_ite {α : Type} (c : Prop) [Decidable c] (p q : Prog α) (hp : noFork p)
    (hq : noFork q) : noFork (if c then p else q) := by
  split
  · exact hp
  · exact hq

theorem noFork_redirect (path : Option String) (flags : Nat) (std : Int) (rest : Prog Int)
    (h : noFork rest) : noFork (redirect path flags std rest) := by
  cases path with
  | none => exact h
  | some f =>
    exact ⟨by simp, fun _ => noFork_ite _ _ _ trivial
      ⟨by simp, fun _ => noFork_ite _ _ _ trivial
        ⟨by simp, fun _ => noFork_ite _ _ _ trivial h⟩⟩⟩

theorem noFork_exec_or_ub (argv : List String) : noFork (exec_or_ub argv) := by
  cases argv with
  | nil => trivial
  | cons name args => exact ⟨by simp, fun _ => noFork_ite _ _ _ trivial trivial⟩

theorem noFork_run_program (cmd : Command) : noFork (run_program cmd) := by
  cases cmd with
  | mk argv i o e p =>
    rw [run_program_eq']
    exact noFork_redirect _ _ _ _ (noFork_redirect _ _ _ _ (noFork_redirect _ _ _ _
      (noFork_exec_or_ub argv)))

theorem noFork_child1_body (cmd : Command) (pipefds : Reply) :
    noFork (child1_body cmd pipefds) :=
  ⟨by simp, fun _ => noFork_ite _ _ _ trivial
    ⟨by simp, fun _ => noFork_ite _ _ _ trivial
      ⟨by simp, fun _ => noFork_ite _ _ _ trivial
        (noFork_bind _ _ (noFork_run_program cmd)
          (fun _ => noFork_ite _ _ _ trivial trivial))⟩⟩⟩

theorem noFork_parent_body (pipefds child1 child2 : Reply) :
    noFork (parent_body pipefds child1 child2) :=
  ⟨by simp, fun _ => noFork_ite _ _ _ trivial
    ⟨by simp, fun _ => noFork_ite _ _ _ trivial
      ⟨by simp, fun _ => noFork_ite _ _ _ trivial
        ⟨by simp, fun _ => noFork_ite _ _ _ trivial trivial⟩⟩⟩⟩

/-! ## Runs in which every call succeeds -/

theorem execsOf_redirected (path : Option String) (flags : Nat) (std : Int)
    (orc : Nat → Call → Reply) (n : Nat) : execsOf (redirected path flags std orc n) = [] := by
  cases path <;> simp [redirected, execsOf_cons, Event.execed?]

theorem runP_redirect_success (path : Option String) (flags : Nat) (std : Int) (rest : Prog Int)
    (orc : Nat → Call → Reply) (n : Nat) (hs : ∀ m c, Succeeds c (orc m c)) :
    runP (redirect path flags std rest) orc n
      = ⟨redirected path flags std orc n ++ (runP rest orc (n + redirectedCalls path)).trace,
          (runP rest orc (n + redirectedCalls path)).outcome,
          (runP rest orc (n + redirectedCalls path)).next⟩ := by
  cases path with
  | none => simp [redirect, redirected, redirectedCalls]
  | some f =>
    have h1 : 0 ≤ (orc n (Call.open_ f flags 0o644)).ret := hs n (Call.open_ f flags 0o644)
    have h2 : 0 ≤ (orc (n + 1) (Call.dup2 (orc n (Call.open_ f flags 0o644)).ret std)).ret :=
      hs (n + 1) (Call.dup2 (orc n (Call.open_ f flags 0o644)).ret std)
    have h3 : 0 ≤ (orc (n + 2) (Call.close (orc n (Call.open_ f flags 0o644)).ret)).ret :=
      hs (n + 2) (Call.close (orc n (Call.open_ f flags 0o644)).ret)
    rw [runP_redirect_some, if_neg (by omega), if_neg (by omega), if_neg (by omega)]
    rfl

/-- When every call succeeds, `run_program` ends by replacing the image, and
the one program it execs is `argv[0]` with the whole `argv`. -/
theorem run_program_success (name : String) (args : List String) (i o e : Option String)
    (p : Option Command) (orc : Nat → Call → Reply) (n : Nat)
    (hs : ∀ m c, Succeeds c (orc m c)) :
    (runP (run_program (Command.mk (name :: args) i o e p)) orc n).outcome = Outcome.execed
    ∧ execsOf (runP (run_program (Command.mk (name :: args) i o e p)) orc n).trace
        = [(name, name :: args)] := by
  have hx : ∀ m, (orc m (Call.execvp name (name :: args))).ret = 0 :=
    fun m => hs m (Call.execvp name (name :: args))
  rw [run_program_eq, runP_redirect_success _ _ _ _ _ _ hs, runP_redirect_success _ _ _ _ _ _ hs,
    runP_redirect_success _ _ _ _ _ _ hs, runP_exec_part, if_pos (hx _)]
  simp [execsOf_redirected, execsOf_cons, Event.execed?, hx]

/-! ## Sequencing in the process tree -/

theorem ending_andThen_exitsWith (r : Run Int) (s : Int → Int)
    (h : r.outcome.ending ≠ Ending.returned) :
    (r.andThen (fun a m => exitsWith (s a) m)).outcome.ending = r.outcome.ending := by
  rw [andThen_exitsWith_outcome]
  cases hr : r.outcome <;> simp_all [Outcome.ending]

theorem Reply.val_ret (v : Int) : (Reply.val v).ret = v := rfl

theorem runTree_call_fork {α : Type} (k : Reply → Prog α) (w : List Nat → Nat → Call → Reply)
    (id : List Nat) (n : Nat) (h : 0 < (w id n Call.fork).ret) :
    runTree (Prog.call Call.fork k) w id n
      = spawn id n (runTree (k (Reply.val 0)) w (n :: id) 0)
          (consRoot (Event.sys Call.fork (w id n Call.fork))
            (runTree (k (w id n Call.fork)) w id (n + 1))) := by
  simp [runTree, replaces, h]

theorem runTree_call {α : Type} (c : Call) (k : Reply → Prog α)
    (w : List Nat → Nat → Call → Reply) (id : List Nat) (n : Nat) (hc : c ≠ Call.fork)
    (hr : replaces c (w id n c) = false) :
    runTree (Prog.call c k) w id n
      = consRoot (Event.sys c (w id n c)) (runTree (k (w id n c)) w id (n + 1)) := by
  simp [runTree, hc, hr]

/-- A program followed by an `exit`, in the process tree: when no spawned
process returns, the tree is that of the program, and the process followed
exits where the program returned. -/
theorem runTree_bind_exit (p : Prog Int) (s : Int → Int) (w : List Nat → Nat → Call → Reply) :
    ∀ (id : List Nat) (n : Nat),
      (∀ l ∈ (runTree p w id n).2, l.ending ≠ Ending.returned) →
      runTree (p.bind (fun a => Prog.exit (s a))) w id n
        = ((runTree p w id n).1.andThen (fun a m => exitsWith (s a) m), (runTree p w id n).2) := by
  induction p with
  | ret a => intro id n _; simp [Prog.bind, runTree, Run.andThen, exitsWith]
  | call c k ih =>
    intro id n h
    by_cases hx : replaces c (w id n c) = true
    · simp [Prog.bind, runTree, hx, Run.andThen]
    have hx' : replaces c (w id n c) = false := by simpa using hx
    by_cases hc : c = Call.fork
    · subst hc
      by_cases hpos : 0 < (w id n Call.fork).ret
      · simp only [Prog.bind]
        rw [runTree_call_fork _ _ _ _ hpos] at h ⊢
        rw [runTree_call_fork _ _ _ _ hpos]
        have hchild : ∀ l ∈ (runTree (k (Reply.val 0)) w (n :: id) 0).2,
            l.ending ≠ Ending.returned := by
          intro l hl
          apply h
          simp [spawn, hl]
        have hparent : ∀ l ∈ (runTree (k (w id n Call.fork)) w id (n + 1)).2,
            l.ending ≠ Ending.returned := by
          intro l hl
          apply h
          simp [spawn, consRoot, hl]
        have hself : (runTree (k (Reply.val 0)) w (n :: id) 0).1.outcome.ending
            ≠ Ending.returned := by
          have := h ⟨n :: id, Event.sys Call.fork (Reply.val 0)
            :: (runTree (k (Reply.val 0)) w (n :: id) 0).1.trace,
            (runTree (k (Reply.val 0)) w (n :: id) 0).1.outcome.ending⟩ (by simp [spawn])
          simpa using this
        rw [ih _ _ _ hchild, ih _ _ _ hparent]
        simp [spawn, consRoot, Run.cons_andThen, andThen_exitsWith_trace,
          ending_andThen_exitsWith _ _ hself]
      · simp only [Prog.bind, runTree, hx', if_true, if_neg hpos] at h ⊢
        simp only [Bool.false_eq_true, if_false] at h ⊢
        rw [ih _ _ _ (by simpa [consRoot] using h)]
        simp [consRoot, Run.cons_andThen]
    · simp only [Prog.bind]
      rw [runTree_call _ _ _ _ _ hc hx'] at h ⊢
      rw [runTree_call _ _ _ _ _ hc hx']
      rw [ih _ _ _ (by simpa [consRoot] using h)]
      simp [consRoot, Run.cons_andThen]
  | act a k ih =>
    intro id n h
    simp only [Prog.bind, runTree] at h ⊢
    rw [ih _ _ (by simpa [consRoot] using h)]
    simp [consRoot, Run.cons_andThen]
  | exit c => intro id n _; simp [Prog.bind, runTree, Run.andThen]
  | abort => intro id n _; simp [Prog.bind, runTree, Run.andThen]
  | ub => intro id n _; simp [Prog.bind, runTree, Run.andThen]

/-! ## The process tree of a chain -/

/-- The process tree of a command that is not a builtin and has no next link,
when fork and waitpid succeed: the parent forks and waits, and the one child
runs `run_program` and then exits. -/
theorem runTree_single (name : String) (args : List String) (i o e : Option String)
    (w : List Nat → Nat → Call → Reply) (id : List Nat) (n : Nat)
    (hcd : name ≠ "cd") (hexit : name ≠ "exit") (hfork : 0 < (w id n Call.fork).ret)
    (hwait : 0 ≤ (w id (n + 1) (Call.waitpid (w id n Call.fork).ret 0)).ret) :
    runTree (execute_command (Command.mk (name :: args) i o e none)) w id n
      = (⟨[Event.sys Call.fork (w id n Call.fork),
            Event.sys (Call.waitpid (w id n Call.fork).ret 0)
              (w id (n + 1) (Call.waitpid (w id n Call.fork).ret 0))],
          Outcome.returned 0, n + 2⟩,
         [⟨n :: id, Event.sys Call.fork (Reply.val 0)
            :: ((runP (run_program (Command.mk (name :: args) i o e none)) (w (n :: id)) 0).andThen
                (fun _ m => exitsWith 0 m)).trace,
            ((runP (run_program (Command.mk (name :: args) i o e none)) (w (n :: id)) 0).andThen
                (fun _ m => exitsWith 0 m)).outcome.ending⟩]) := by
  have hchild : runTree ((run_program (Command.mk (name :: args) i o e none)).bind
        (fun _ => Prog.exit 0)) w (n :: id) 0
      = ((runP (run_program (Command.mk (name :: args) i o e none)) (w (n :: id)) 0).andThen
          (fun _ m => exitsWith 0 m), []) := by
    rw [runTree_noFork _ _ (noFork_bind (run_program (Command.mk (name :: args) i o e none))
      (fun _ => Prog.exit 0) (noFork_run_program _) (fun _ => trivial)), runP_bind]
    rfl
  rw [execute_command_cons, if_neg hcd, if_neg hexit]
  simp only [bind_eq, pure_eq, Prog.bind, sys, perror]
  rw [runTree_call_fork _ _ _ _ hfork]
  simp only [Reply.val_ret, lt_self_iff_false, if_false, if_true,
    if_neg (not_lt.mpr (le_of_lt hfork)), if_neg (ne_of_gt hfork)]
  rw [runTree_call (Call.waitpid (w id n Call.fork).ret 0) _ _ _ _ (by simp) rfl]
  simp only [if_neg (not_lt.mpr hwait)]
  simp [spawn, consRoot, runTree, Run.cons, hchild]

/-- Child B in the process tree, when its three calls succeed. -/
theorem runTree_child2 (pipefds : Reply) (exec_next : Prog Int)
    (w : List Nat → Nat → Call → Reply) (id : List Nat) (n : Nat)
    (h1 : 0 ≤ (w id n (Call.close pipefds.fd1)).ret)
    (h2 : 0 ≤ (w id (n + 1) (Call.close STDIN_FILENO)).ret)
    (h3 : 0 ≤ (w id (n + 2) (Call.dup2 pipefds.fd0 STDIN_FILENO)).ret) :
    runTree (child2_body pipefds exec_next) w id n
      = consRoot (Event.sys (Call.close pipefds.fd1) (w id n (Call.close pipefds.fd1)))
          (consRoot (Event.sys (Call.close STDIN_FILENO) (w id (n + 1) (Call.close STDIN_FILENO)))
            (consRoot (Event.sys (Call.dup2 pipefds.fd0 STDIN_FILENO)
                (w id (n + 2) (Call.dup2 pipefds.fd0 STDIN_FILENO)))
              (runTree (exec_next.bind (fun _ => Prog.exit 0)) w id (n + 3)))) := by
  simp only [child2_body]
  rw [runTree_call (Call.close pipefds.fd1) _ _ _ _ (by simp) rfl]
  simp only [if_neg (not_lt.mpr h1)]
  rw [runTree_call (Call.close STDIN_FILENO) _ _ _ _ (by simp) rfl]
  simp only [if_neg (not_lt.mpr h2)]
  rw [runTree_call (Call.dup2 pipefds.fd0 STDIN_FILENO) _ _ _ _ (by simp) rfl]
  simp only [if_neg (not_lt.mpr h3)]

/-- The process tree of `execute_command_with_pipe` when `pipe` and both
`fork`s succeed: the orchestrator, child A, child B and the descendants of
child B. -/
theorem runTree_with_pipe (argv : List String) (i o e : Option String) (next : Command)
    (exec_next : Prog Int) (w : List Nat → Nat → Call → Reply) (id : List Nat) (n : Nat)
    (hp : 0 ≤ (w id n Call.pipe).ret) (h1 : 0 < (w id (n + 1) Call.fork).ret)
    (h2 : 0 < (w id (n + 2) Call.fork).ret) :
    runTree (execute_command_with_pipe (Command.mk argv i o e (some next)) exec_next) w id n
      = (Run.prepend [Event.sys Call.pipe (w id n Call.pipe),
            Event.sys Call.fork (w id (n + 1) Call.fork),
            Event.sys Call.fork (w id (n + 2) Call.fork)]
          (runP (parent_body (w id n Call.pipe) (w id (n + 1) Call.fork)
            (w id (n + 2) Call.fork)) (w id) (n + 3)),
         ⟨(n + 1) :: id, Event.sys Call.fork (Reply.val 0)
            :: (runP (child1_body (Command.mk argv i o e (some next)) (w id n Call.pipe))
                (w ((n + 1) :: id)) 0).trace,
            (runP (child1_body (Command.mk argv i o e (some next)) (w id n Call.pipe))
                (w ((n + 1) :: id)) 0).outcome.ending⟩
         :: ⟨(n + 2) :: id, Event.sys Call.fork (Reply.val 0)
            :: (runTree (child2_body (w id n Call.pipe) exec_next) w ((n + 2) :: id) 0).1.trace,
            (runTree (child2_body (w id n Call.pipe) exec_next) w ((n + 2) :: id)
              0).1.outcome.ending⟩
         :: (runTree (child2_body (w id n Call.pipe) exec_next) w ((n + 2) :: id) 0).2) := by
  rw [execute_command_with_pipe_eq]
  rw [runTree_call Call.pipe _ _ _ _ (by simp) rfl]
  simp only [if_neg (not_lt.mpr hp)]
  rw [runTree_call_fork _ _ _ _ h1]
  simp only [Reply.val_ret, lt_self_iff_false, if_false, if_true,
    if_neg (not_lt.mpr (le_of_lt h1)), if_neg (ne_of_gt h1)]
  rw [runTree_call_fork _ _ _ _ h2]
  simp only [Reply.val_ret, lt_self_iff_false, if_false, if_true,
    if_neg (not_lt.mpr (le_of_lt h2)), if_neg (ne_of_gt h2)]
  rw [runTree_noFork _ _ (noFork_child1_body _ _), runTree_noFork _ _ (noFork_parent_body _ _ _)]
  simp [spawn, consRoot, Run.cons, Run.prepend, Nat.add_assoc]

theorem isExternal_cons (name : String) (args : List String) (i o e : Option String)
    (p : Option Command) (h : isExternal (Command.mk (name :: args) i o e p) = true) :
    name ≠ "cd" ∧ name ≠ "exit" := by
  simpa [isExternal, Command.argv] using h

theorem programOf_cons (name : String) (args : List String) (i o e : Option String)
    (p : Option Command) :
    programOf (Command.mk (name :: args) i o e p) = (name, name :: args) := rfl

/-- The run of child A when every call succeeds. -/
theorem runP_child1_success (name : String) (args : List String) (i o e : Option String)
    (p : Option Command) (pipefds : Reply) (orc : Nat → Call → Reply) (n : Nat)
    (hs : ∀ m c, Succeeds c (orc m c)) :
    (runP (child1_body (Command.mk (name :: args) i o e p) pipefds) orc n).outcome
        = Outcome.execed
    ∧ execsOf (runP (child1_body (Command.mk (name :: args) i o e p) pipefds) orc n).trace
        = [(name, name :: args)] := by
  have h1 : 0 ≤ (orc n (Call.close pipefds.fd0)).ret := hs n (Call.close pipefds.fd0)
  have h2 : 0 ≤ (orc (n + 1) (Call.close STDOUT_FILENO)).ret :=
    hs (n + 1) (Call.close STDOUT_FILENO)
  have h3 : 0 ≤ (orc (n + 2) (Call.dup2 pipefds.fd1 STDOUT_FILENO)).ret :=
    hs (n + 2) (Call.dup2 pipefds.fd1 STDOUT_FILENO)
  obtain ⟨hout, hex⟩ := run_program_success name args i o e p orc (n + 3) hs
  rw [runP_child1, if_neg (by omega), if_neg (by omega), if_neg (by omega)]
  rw [Run.prepend_outcome, Run.prepend_trace, andThen_exitsWith_outcome,
    andThen_exitsWith_trace, hout, execsOf_append, hex]
  simp [ev, execsOf_cons, Event.execed?]

/-- The run of the orchestrator after its two forks when every call succeeds. -/
theorem runP_parent_success (pipefds child1 child2 : Reply) (orc : Nat → Call → Reply) (n : Nat)
    (hs : ∀ m c, Succeeds c (orc m c)) :
    (runP (parent_body pipefds child1 child2) orc n).outcome = Outcome.returned 0
    ∧ execsOf (runP (parent_body pipefds child1 child2) orc n).trace = [] := by
  have h1 : 0 ≤ (orc n (Call.close pipefds.fd0)).ret := hs n (Call.close pipefds.fd0)
  have h2 : 0 ≤ (orc (n + 1) (Call.close pipefds.fd1)).ret := hs (n + 1) (Call.close pipefds.fd1)
  have h3 : 0 ≤ (orc (n + 2) (Call.waitpid child1.ret 0)).ret :=
    hs (n + 2) (Call.waitpid child1.ret 0)
  have h4 : 0 ≤ (orc (n + 3) (Call.waitpid child2.ret 0)).ret :=
    hs (n + 3) (Call.waitpid child2.ret 0)
  rw [runP_parent, if_neg (by omega), if_neg (by omega), if_neg (by omega), if_neg (by omega)]
  simp [ev, execsOf_cons, Event.execed?, EXIT_SUCCESS]

/-- The process tree of a chain of external commands when every call
succeeds: the process followed returns 0 and execs nothing; a chain of `N`
stages spawns `2 * N - 1` processes; the programs they exec are, in the order
of the logs, the programs of the stages in chain order; each spawned process
ends by a successful `execvp` or by `exit(0)`, and exactly `N` of them by
`execvp`. -/
theorem tree_of_chain :
    ∀ (cmd : Command) (w : List Nat → Nat → Call → Reply) (id : List Nat) (n : Nat),
      AllSucceed w → (∀ s ∈ cmd.stages, isExternal s = true) →
      (runTree (execute_command cmd) w id n).1.outcome = Outcome.returned 0
      ∧ execsOf (runTree (execute_command cmd) w id n).1.trace = []
      ∧ (runTree (execute_command cmd) w id n).2.length + 1 = 2 * cmd.stages.length
      ∧ ((runTree (execute_command cmd) w id n).2.map (fun l => execsOf l.trace)).flatten
          = cmd.stages.map programOf
      ∧ (∀ l ∈ (runTree (execute_command cmd) w id n).2,
          l.ending = Ending.execed ∨ l.ending = Ending.exited 0)
      ∧ (execedLogs (runTree (execute_command cmd) w id n).2).length = cmd.stages.length
  | Command.mk [] i o e none, w, id, n => by
    intro _ hext
    have := hext (Command.mk [] i o e none) (by simp [Command.stages])
    simp [isExternal, Command.argv] at this
  | Command.mk [] i o e (some next), w, id, n => by
    intro _ hext
    have := hext (Command.mk [] i o e (some next)) (by simp [Command.stages])
    simp [isExternal, Command.argv] at this
  | Command.mk (name :: args) i o e none, w, id, n => by
    intro hw hext
    obtain ⟨hcd, hexit⟩ := isExternal_cons name args i o e none
      (hext _ (by simp [Command.stages]))
    have hfork : 0 < (w id n Call.fork).ret := hw id n Call.fork
    have hwait : 0 ≤ (w id (n + 1) (Call.waitpid (w id n Call.fork).ret 0)).ret :=
      hw id (n + 1) (Call.waitpid (w id n Call.fork).ret 0)
    obtain ⟨hout, hex⟩ := run_program_success name args i o e none (w (n :: id)) 0
      (fun m c => hw (n :: id) m c)
    rw [runTree_single name args i o e w id n hcd hexit hfork hwait]
    simp only [andThen_exitsWith_trace, andThen_exitsWith_outcome, hout]
    simp [Command.stages, programOf_cons, execsOf_cons, Event.execed?, hex, Outcome.ending,
      execedLogs]
  | Command.mk (name :: args) i o e (some next), w, id, n => by
    intro hw hext
    obtain ⟨hcd, hexit⟩ := isExternal_cons name args i o e (some next)
      (hext _ (by simp [Command.stages]))
    have hnext : ∀ s ∈ next.stages, isExternal s = true :=
      fun s hs => hext s (by simp [Command.stages, hs])
    obtain ⟨ih1, ih2, ih3, ih4, ih5, ih6⟩ := tree_of_chain next w ((n + 2) :: id) 3 hw hnext
    have hp : 0 ≤ (w id n Call.pipe).ret := hw id n Call.pipe
    have h1 : 0 < (w id (n + 1) Call.fork).ret := hw id (n + 1) Call.fork
    have h2 : 0 < (w id (n + 2) Call.fork).ret := hw id (n + 2) Call.fork
    have hb1 : 0 ≤ (w ((n + 2) :: id) 0 (Call.close (w id n Call.pipe).fd1)).ret :=
      hw _ 0 (Call.close (w id n Call.pipe).fd1)
    have hb2 : 0 ≤ (w ((n + 2) :: id) (0 + 1) (Call.close STDIN_FILENO)).ret :=
      hw _ (0 + 1) (Call.close STDIN_FILENO)
    have hb3 : 0 ≤ (w ((n + 2) :: id) (0 + 2)
        (Call.dup2 (w id n Call.pipe).fd0 STDIN_FILENO)).ret :=
      hw _ (0 + 2) (Call.dup2 (w id n Call.pipe).fd0 STDIN_FILENO)
    have hnoret : ∀ l ∈ (runTree (execute_command next) w ((n + 2) :: id) (0 + 3)).2,
        l.ending ≠ Ending.returned := by
      intro l hl
      rcases ih5 l (by simpa using hl) with h | h <;> rw [h] <;> simp
    obtain ⟨ha1, ha2⟩ := runP_child1_success name args i o e (some next) (w id n Call.pipe)
      (w ((n + 1) :: id)) 0 (fun m c => hw ((n + 1) :: id) m c)
    obtain ⟨hq1, hq2⟩ := runP_parent_success (w id n Call.pipe) (w id (n + 1) Call.fork)
      (w id (n + 2) Call.fork) (w id) (n + 3) (fun m c => hw id m c)
    rw [execute_command_cons, if_neg hcd, if_neg hexit]
    simp only []
    rw [runTree_with_pipe _ _ _ _ _ _ _ _ _ hp h1 h2,
      runTree_child2 _ _ _ _ _ hb1 hb2 hb3, runTree_bind_exit _ (fun _ => 0) _ _ _ hnoret]
    simp only [Nat.zero_add] at *
    simp only [consRoot_fst, consRoot_snd, Run.prepend_outcome, Run.prepend_trace, Run.cons,
      andThen_exitsWith_trace, andThen_exitsWith_outcome, ih1, ha1, hq1, Outcome.ending]
    refine ⟨trivial, ?_, ?_, ?_, ?_, ?_⟩
    · simp [execsOf_cons, Event.execed?, hq2]
    · simp [Command.stages]
      omega
    · simp [Command.stages, programOf_cons, execsOf_cons, Event.execed?, ha2, ih2, ih4]
    · intro l hl
      simp only [List.mem_cons] at hl
      rcases hl with h | h | h
      · left; rw [h]
      · right; rw [h]
      · exact ih5 l h
    · simp [execedLogs, Command.stages] at ih6 ⊢
      simp [List.filter_cons, ih6]

/-- C10 (as stated, refuted): executing the two-stage chain `ls | wc`, every
call succeeding, spawns three processes, not two: child A (which execs `ls`),
child B, and the child that child B forks to exec `wc`. -/
theorem two_stage_chain_spawns_three_processes :
    lsWc.stages.length = 2
    ∧ (runTree (execute_command lsWc) allSucceed [] 0).2.length = 3
    ∧ (runTree (execute_command lsWc) allSucceed [] 0).2.map ProcLog.id = [[1], [2], [3, 2]]
    ∧ (runTree (execute_command lsWc) allSucceed [] 0).2.map ProcLog.ending
        = [Ending.execed, Ending.exited 0, Ending.execed] := by
  decide

/-- C10 (amended): for a chain of N >= 1 stages none of which is a builtin,
when every system call succeeds, executing the chain with execute_command
spawns exactly 2 * N - 1 processes in total; exactly N of them end by a
successful execvp and the others end by exit(0); the programs exec'd are, in
the order of the process tree, the programs of the stages in chain order, each
exactly once; and the caller gets 0 back. -/
theorem chain_spawns_two_n_minus_one_processes (cmd : Command)
    (w : List Nat → Nat → Call → Reply) (id : List Nat) (n : Nat)
    (hw : AllSucceed w) (hext : ∀ s ∈ cmd.stages, isExternal s = true) :
    1 ≤ cmd.stages.length
    ∧ (runTree (execute_command cmd) w id n).2.length = 2 * cmd.stages.length - 1
    ∧ (execedLogs (runTree (execute_command cmd) w id n).2).length = cmd.stages.length
    ∧ (∀ l ∈ (runTree (execute_command cmd) w id n).2,
        l.ending = Ending.execed ∨ l.ending = Ending.exited 0)
    ∧ treeExecs (runTree (execute_command cmd) w id n) = cmd.stages.map programOf
    ∧ (runTree (execute_command cmd) w id n).1.outcome = Outcome.returned 0 := by
  obtain ⟨h1, h2, h3, h4, h5, h6⟩ := tree_of_chain cmd w id n hw hext
  refine ⟨?_, by omega, h6, h5, by simp [treeExecs, h2, h4], h1⟩
  cases cmd with
  | mk argv i o e p => cases p <;> simp [Command.stages]

/-- C10 (amended), on the three-stage chain `ls | sort | wc` in the world in
which every call succeeds. -/
theorem chain_spawns_two_n_minus_one_processes_witness :
    (∀ s ∈ lsSortWc.stages, isExternal s = true)
    ∧ 1 ≤ lsSortWc.stages.length
    ∧ (runTree (execute_command lsSortWc) allSucceed [] 0).2.length
        = 2 * lsSortWc.stages.length - 1
    ∧ (execedLogs (runTree (execute_command lsSortWc) allSucceed [] 0).2).length
        = lsSortWc.stages.length
    ∧ (∀ l ∈ (runTree (execute_command lsSortWc) allSucceed [] 0).2,
        l.ending = Ending.execed ∨ l.ending = Ending.exited 0)
    ∧ treeExecs (runTree (execute_command lsSortWc) allSucceed [] 0)
        = lsSortWc.stages.map programOf
    ∧ (runTree (execute_command lsSortWc) allSucceed [] 0).1.outcome = Outcome.returned 0 :=
  ⟨by decide,
   chain_spawns_two_n_minus_one_processes lsSortWc allSucceed [] 0
    (by intro id n c; cases c <;> simp [allSucceed, Succeeds, Reply.val])
    (by decide)⟩

end Shell
